import Mathlib

/-!
Verification of the BLS time-series pipeline in `usefulFunctions.py`.

The embedding models Python values shallowly:
* JSON documents (the decoded bodies returned by `response.json()` / `json.loads`)
  become the inductive `Json`; Python floats are abstracted as rationals (`ℚ`),
  so non-finite float results (inf/NaN) are outside the model.
* Python runtime values that the validation code inspects with `type(...)`
  become the inductive `PyVal`.
* Python exceptions relevant to the claims become `PyErr`; fallible code
  returns `Except PyErr _`.
* pandas tables become lists of rows; each row carries the `year`/`period`
  join keys and an association list from column label to an optional (`null`able)
  rational cell value.
-/

/-- A decoded JSON document (the result of `json.loads` / `response.json()`). -/
inductive Json where
  | jnull : Json
  | jbool (b : Bool) : Json
  | jnum (q : ℚ) : Json
  | jstr (s : String) : Json
  | jarr (xs : List Json) : Json
  | jobj (kvs : List (String × Json)) : Json

/-- Python runtime values as far as the validation code distinguishes them
with `type(x) == int` / `type(x) == str`.  `boolV` is separate from `intV`
because `type(True) == int` is false in Python. -/
inductive PyVal where
  | intV (n : ℤ) : PyVal
  | strV (s : String) : PyVal
  | boolV (b : Bool) : PyVal
  | floatV (q : ℚ) : PyVal
  | noneV : PyVal
  deriving DecidableEq

/-- The Python exceptions the embedded code can raise. -/
inductive PyErr where
  | valueError (msg : String) : PyErr
  | typeError : PyErr
  | keyError : PyErr
  | indexError : PyErr
  | zeroDivisionError : PyErr
  deriving DecidableEq

/-- First-match association-list lookup (Python `dict` access on
de-duplicated keys, and pandas column lookup). -/
def assocFind {α : Type} : List (String × α) → String → Option α
  | [], _ => none
  | (k, v) :: rest, key => if k = key then some v else assocFind rest key

/-- Does `pat` occur at the head of `txt`? (helper for substring search). -/
def leadsWith : List Char → List Char → Bool
  | [], _ => true
  | _ :: _, [] => false
  | a :: as, b :: bs => a = b && leadsWith as bs

/-- Substring test, modelling Python `pat in txt` for strings. -/
def hasSub (txt pat : List Char) : Bool :=
  (List.range (txt.length + 1)).any fun i => leadsWith pat (txt.drop i)

/-- Is `x` the JSON string `s`? (Python `x == s` for a string `s`: values of
other runtime types never compare equal to a string). -/
def jsonIsStr (x : Json) (s : String) : Bool :=
  match x with
  | .jstr t => t = s
  | _ => false

/-- Python `key in v`: key membership for dicts, element membership for
lists, substring test for strings; a `TypeError` otherwise. -/
def pyContains (v : Json) (needle : String) : Except PyErr Bool :=
  match v with
  | .jobj kvs => .ok (kvs.any fun kv => kv.1 = needle)
  | .jarr xs => .ok (xs.any fun x => jsonIsStr x needle)
  | .jstr s => .ok (hasSub s.data needle.data)
  | _ => .error .typeError

/-- Python `v[key]` for a string key: dict lookup (`KeyError` when absent),
`TypeError` for lists, strings and scalars. -/
def pyGetItem (v : Json) (key : String) : Except PyErr Json :=
  match v with
  | .jobj kvs =>
    match assocFind kvs key with
    | some x => .ok x
    | none => .error .keyError
  | _ => .error .typeError

/-- Python `xs[i]` for a list: negative indices wrap, out-of-range raises
`IndexError`. -/
def pyListIndex (xs : List Json) (i : ℤ) : Except PyErr Json :=
  let j := if i < 0 then i + xs.length else i
  if h : 0 ≤ j ∧ j.toNat < xs.length then .ok (xs.get ⟨j.toNat, h.2⟩)
  else .error .indexError

/-- Numeric value of a decimal digit. -/
def charDigit (c : Char) : Option ℕ :=
  if '0' ≤ c ∧ c ≤ '9' then some (c.toNat - 48) else none

/-- Accumulate a digit string into a natural number; `none` when a
non-digit appears. -/
def digitsAcc : List Char → ℕ → Option ℕ
  | [], acc => some acc
  | c :: cs, acc =>
    match charDigit c with
    | some d => digitsAcc cs (acc * 10 + d)
    | none => none

/-- Unsigned decimal literal `digits [ '.' digits ]` with at least one digit,
as accepted by Python `float`.  Exponent, `inf`/`nan` and whitespace forms
are omitted: the BLS API serves plain decimals. -/
def decimalCore (l : List Char) : Option ℚ :=
  let intPart := l.takeWhile fun c => c ≠ '.'
  let rest := l.dropWhile fun c => c ≠ '.'
  match rest with
  | [] =>
    if intPart.isEmpty then none
    else (digitsAcc intPart 0).map fun n => (n : ℚ)
  | _ :: frac =>
    if intPart.isEmpty && frac.isEmpty then none
    else
      match digitsAcc intPart 0, digitsAcc frac 0 with
      | some n, some f => some ((n : ℚ) + (f : ℚ) / (10 : ℚ) ^ frac.length)
      | _, _ => none

/-- Python `float(s)` on a string (see `decimalCore` for the accepted forms). -/
def pyFloatParse (s : String) : Option ℚ :=
  match s.data with
  | '+' :: rest => decimalCore rest
  | '-' :: rest => (decimalCore rest).map Neg.neg
  | l => decimalCore l

/-- Python `int(s)` on a string: optional sign then decimal digits.
(Surrounding whitespace and digit-group underscores, which Python also
accepts, are omitted; no claim involves them.) -/
def pyIntParse (s : String) : Option ℤ :=
  match s.data with
  | '+' :: rest =>
    if rest.isEmpty then none else (digitsAcc rest 0).map fun n => (n : ℤ)
  | '-' :: rest =>
    if rest.isEmpty then none else (digitsAcc rest 0).map fun n => -(n : ℤ)
  | l =>
    if l.isEmpty then none else (digitsAcc l 0).map fun n => (n : ℤ)

/-- Python `float(x)` on a JSON value: strings are parsed, numbers pass
through, booleans become 0/1, everything else raises `TypeError`. -/
def pyFloatOfJson (v : Json) : Except PyErr ℚ :=
  match v with
  | .jstr s =>
    match pyFloatParse s with
    | some q => .ok q
    | none => .error (.valueError "could not convert string to float")
  | .jnum q => .ok q
  | .jbool b => .ok (if b then 1 else 0)
  | _ => .error .typeError

/-- Round-half-to-even on rationals, the tie rule of Python `round`.
(The binary floating-point representation error that can shift Python's
result on ties is outside the rational model.) -/
def roundHalfEven (q : ℚ) : ℤ :=
  let f := ⌊q⌋
  let r := q - (f : ℚ)
  if r < 1/2 then f
  else if 1/2 < r then f + 1
  else if f % 2 = 0 then f else f + 1

/-- Python `round(q, d)`. -/
def pyRound (q : ℚ) (d : ℤ) : ℚ :=
  ((roundHalfEven (q * (10 : ℚ) ^ d) : ℚ)) / (10 : ℚ) ^ d

/-- `readJSONfile` (usefulFunctions.py lines 8-46).  The file system is
abstracted as a partial map from path to contents (`os.path.exists` plus
`open(...).read()`; unreadable paths such as directories are outside the
model), and `json.loads` as a partial parse function.  Error messages are
returned as string values, exactly as the Python code returns `str`
messages in the same value universe as parsed documents. -/
def readJSONfile (fname : PyVal) (fileContents : String → Option String)
    (loads : String → Option Json) : Json :=
  match fname with
  | .strV s =>
    match fileContents s with
    | some content =>
      match loads content with
      | some j => j
      | none => .jstr "The file does not contain valid json"
    | none => .jstr "file does not exist"
  | _ => .jstr "input should be a string"

/-- Result values of `inflation`: a computed float, a returned error
string, or the raw `r['message']` returned when the API reports failure. -/
inductive InfOut where
  | onum (q : ℚ) : InfOut
  | ostr (s : String) : InfOut
  | ojson (j : Json) : InfOut

/-- `inflation` (usefulFunctions.py lines 52-112).  The network call is
abstracted: `r` is the decoded JSON body `requests.get(url).json()`.
The `print` on line 111 is a side channel and is dropped. -/
def inflation (lag varname : PyVal) (digits : ℤ) (r : Json) : Except PyErr InfOut :=
  match lag with
  | .intV n =>
    if n > 12 ∨ n < 0 then
      .ok (.ostr "lag should be an integer between 0 and 12, including.")
    else
      match varname with
      | .strV _ => do
        let st ← pyGetItem r "status"
        if jsonIsStr st "REQUEST_SUCCEEDED" then do
          let results ← pyGetItem r "Results"
          let series ← pyGetItem results "series"
          let s0 ←
            match series with
            | .jarr xs => pyListIndex xs 0
            | _ => .error .typeError
          let dataJ ← pyGetItem s0 "data"
          let ds ←
            match dataJ with
            | .jarr xs => (.ok xs : Except PyErr (List Json))
            | _ => .error .typeError
          let entryNew ← pyListIndex ds n
          let vNew ← pyGetItem entryNew "value"
          let newQ ← pyFloatOfJson vNew
          let entryOld ← pyListIndex ds (12 + n)
          let vOld ← pyGetItem entryOld "value"
          let oldQ ← pyFloatOfJson vOld
          if oldQ = 0 then .error .zeroDivisionError
          else .ok (.onum (pyRound ((newQ / oldQ - 1) * 100) digits))
        else do
          let msg ← pyGetItem r "message"
          .ok (.ojson msg)
      | _ => .ok (.ostr "variable name should be a string (or left out)")
  | _ => .ok (.ostr "lag should be an integer")

/-- The transport-level response seen by the fetchers: HTTP status code and
decoded JSON body.  (`response.json()` failures on non-JSON bodies are
outside the model.) -/
structure HttpResponse where
  status_code : ℕ
  body : Json

/-- The post-transport part of `fetch_bls_data` (lines 198-201): envelope
check `'Results' not in json_data or 'series' not in json_data['Results']`
with Python's short-circuit evaluation and membership semantics, then
`json_data['Results']['series']`. -/
def fetchEnvelope (body : Json) : Except PyErr Json := do
  let hasR ← pyContains body "Results"
  if hasR then do
    let results ← pyGetItem body "Results"
    let hasS ← pyContains results "series"
    if hasS then pyGetItem results "series"
    else .error (.valueError "Invalid API response format")
  else .error (.valueError "Invalid API response format")

/-- `fetch_bls_data` (usefulFunctions.py lines 182-201).  The POST itself is
abstracted as the `resp` argument. -/
def fetch_bls_data (resp : HttpResponse) : Except PyErr Json :=
  if resp.status_code ≠ 200 then
    .error (.valueError ("API request failed with status code " ++ toString resp.status_code))
  else fetchEnvelope resp.body

/-- One raw observation from a series' `data` array, with the `value`
already held as the float that `.astype({'value': 'float64'})` produces
(decimal-string parsing is performed in `decodeObs`). -/
structure Obs where
  year : String
  period : String
  value : ℚ
  deriving DecidableEq

/-- One element of `Results.series` as the parsing loops read it:
`series.get('seriesID', 'Unknown')` and `series.get('data', [])`, so both
fields may be absent. -/
structure RawSeries where
  seriesID : Option String
  data : Option (List Obs)
  deriving DecidableEq

/-- A row of a pandas frame keyed by `year`/`period`; `cells` is the
ordered association of the remaining column labels with their optional
(nullable) values. -/
structure Row where
  year : String
  period : String
  cells : List (String × Option ℚ)
  deriving DecidableEq

/-- The (year, period) merge key of a row. -/
def keyOf (r : Row) : String × String := (r.year, r.period)

/-- The (year, period) key of an observation. -/
def obsKey (o : Obs) : String × String := (o.year, o.period)

/-- Rows produced for one left row by `merge(..., how='outer')`: one row
per matching right observation, or the row padded with a null for the new
column when no right key matches. -/
def extendRow (id : String) (d : List Obs) (lr : Row) : List Row :=
  match d.filter fun o => decide (obsKey o = keyOf lr) with
  | [] => [⟨lr.year, lr.period, lr.cells ++ [(id, none)]⟩]
  | ms => ms.map fun o => ⟨lr.year, lr.period, lr.cells ++ [(id, some o.value)]⟩

/-- Left part of the outer merge: every left row extended per `extendRow`. -/
def mergeLeft (id : String) (d : List Obs) : List Row → List Row
  | [] => []
  | lr :: rest => extendRow id d lr ++ mergeLeft id d rest

/-- Right part of the outer merge: right observations whose key occurs in
no left row, with nulls for all previously accumulated columns. -/
def mergeRight (cols : List String) (id : String) (L : List Row) (d : List Obs) : List Row :=
  (d.filter fun o => !(L.any fun lr => decide (keyOf lr = obsKey o))).map fun o =>
    ⟨o.year, o.period, (cols.map fun c => (c, (none : Option ℚ))) ++ [(id, some o.value)]⟩

/-- `new_df.merge(current_df, on=['year', 'period'], how='outer')` where
`cols` are the value columns already accumulated in the left table `T`
and `(id, d)` is the incoming series column. -/
def mergeOuter (cols : List String) (T : List Row) (id : String) (d : List Obs) : List Row :=
  mergeLeft id d T ++ mergeRight cols id T d

/-- The merging loop shared by `parse_series_data` (lines 205-214): series
with no data are skipped, the others are outer-merged in order.  The state
is the accumulated column-label list and row list. -/
def parseFold : List RawSeries → List String → List Row → List String × List Row
  | [], cols, T => (cols, T)
  | s :: rest, cols, T =>
    let id := s.seriesID.getD "Unknown"
    let d := s.data.getD []
    if d.isEmpty then parseFold rest cols T
    else parseFold rest (cols ++ [id]) (mergeOuter cols T id d)

/-- Column renaming by `df.rename(columns=seriesDict)`: a column keeps its
name when the dict has no entry for it. -/
def renameCol (dict : List (String × String)) (c : String) : String :=
  (assocFind dict c).getD c

/-- `renameCol` applied to every cell label of a row.  (The `year` and
`period` key columns are held structurally and are not renamed; no claim
involves a `seriesDict` that renames the key columns.) -/
def renameRow (dict : List (String × String)) (r : Row) : Row :=
  ⟨r.year, r.period, r.cells.map fun cv => (renameCol dict cv.1, cv.2)⟩

/-- `parse_series_data` (usefulFunctions.py lines 203-215).  The `verbose`
flag only controls the observational `print` side channel, which the model
drops; the parameter is kept to state claims "regardless of verbose". -/
def parse_series_data (sd : List RawSeries) (dict : List (String × String))
    (_verbose : Bool) : List Row :=
  ((parseFold sd [] []).2).map (renameRow dict)

/-- The merging loop of the older `multiSeries` (lines 162-178).  There the
`if not data: continue` guard sits INSIDE `if verbose:`, so with
`verbose=False` an empty series reaches
`pd.DataFrame(data)[['year', 'period', 'value']]`, which raises `KeyError`
(a frame built from an empty list has no columns to select). -/
def multiSeriesLoop (verbose : Bool) :
    List RawSeries → List String → List Row → Except PyErr (List String × List Row)
  | [], cols, T => .ok (cols, T)
  | s :: rest, cols, T =>
    let id := s.seriesID.getD "Unknown"
    let d := s.data.getD []
    if verbose && d.isEmpty then multiSeriesLoop verbose rest cols T
    else if d.isEmpty then .error .keyError
    else multiSeriesLoop verbose rest (cols ++ [id]) (mergeOuter cols T id d)

/-- `x.replace('M', '')` for the single-character pattern `'M'`: removes
every occurrence of `'M'`, not only a leading marker.  (Python's
`str.replace` substitutes all occurrences; for a one-character pattern
that is exactly a character filter.) -/
def stripM (s : String) : String :=
  ⟨s.data.filter fun c => decide (c ≠ 'M')⟩

/-- `int(x.replace('M', ''))` applied to a period token. -/
def monthOf (p : String) : Option ℤ :=
  pyIntParse (stripM p)

/-- `df['month'] = df['period'].apply(lambda x: int(x.replace('M', '')))`:
annotate each row with its parsed month, failing like `int` does. -/
def monthsOf : List Row → Option (List (Row × ℤ))
  | [] => some []
  | r :: rest => do
    let m ← monthOf r.period
    let ms ← monthsOf rest
    pure ((r, m) :: ms)

/-- Value of the column `t` in a row's cells; a null cell reads as `none`.
(All tables reaching the change computation carry the target column in
every row — `prepare_dataframe` checks this and raises `KeyError`
otherwise, mirroring `df[target_col]` on a missing column.) -/
def getCellQ (t : String) (cells : List (String × Option ℚ)) : Option ℚ :=
  match assocFind cells t with
  | some v => v
  | none => none

/-- Lexicographic order on strings by character code, as pandas compares
the `year` strings in `sort_values`. -/
def strLtB : List Char → List Char → Bool
  | [], [] => false
  | [], _ :: _ => true
  | _ :: _, [] => false
  | a :: as, b :: bs => if a = b then strLtB as bs else decide (a < b)

/-- `sort_values(by=['year', 'month'])`: ascending by year string, then by
numeric month. -/
def rowLe (a b : Row × ℤ) : Bool :=
  strLtB a.1.year.data b.1.year.data || (a.1.year = b.1.year && a.2 ≤ b.2)

/-- `rowLe` as a decidable relation for `List.insertionSort`. -/
def rowOrd (a b : Row × ℤ) : Prop := rowLe a b = true

instance : DecidableRel rowOrd := fun a b => by
  unfold rowOrd
  infer_instance

/-- Forward fill with the last seen value (`fillna(method='pad')`),
carrying `last`, the value in force before this suffix. -/
def ffillAux : Option ℚ → List (Option ℚ) → List (Option ℚ)
  | _, [] => []
  | last, v :: rest =>
    match v with
    | some q => some q :: ffillAux (some q) rest
    | none => last :: ffillAux last rest

/-- `fillna(method='pad')` over a column: every null takes the nearest
earlier non-null value; nulls before the first value stay null. -/
def ffill (vs : List (Option ℚ)) : List (Option ℚ) :=
  ffillAux none vs

/-- `df[target_col].pct_change(periods=12) * 100` over the column values in
sorted order, with the pandas default `fill_method='pad'` (the default in
every pandas release contemporary with this code): the column is
forward-filled first and the ratio is taken on the filled values, so only
the first 12 positions and positions with no earlier non-null value yield
null.  Division is rational, so a zero 12-back value is outside the float
model (pandas would produce inf/NaN there). -/
def pctChange12 (vs : List (Option ℚ)) : List (Option ℚ) :=
  let filled := ffill vs
  (List.range vs.length).map fun i =>
    if i < 12 then none
    else
      match filled.getD (i - 12) none, filled.getD i none with
      | some a, some b => some ((b / a - 1) * 100)
      | _, _ => none

/-- A row of the frame returned by `prepare_dataframe`: the merged row plus
the derived `month`, `time_label` and `change` columns. -/
structure PreparedRow where
  year : String
  period : String
  cells : List (String × Option ℚ)
  month : ℤ
  time_label : String
  change : Option ℚ
  deriving DecidableEq

/-- Forget the derived columns of a prepared row. -/
def toRow (r : PreparedRow) : Row := ⟨r.year, r.period, r.cells⟩

/-- Assemble the prepared rows from the sorted (row, month) pairs and the
change column: `time_label` is `str(year) + '-' + str(month)`. -/
def buildPrepared (pairs : List (Row × ℤ)) (chg : List (Option ℚ)) : List PreparedRow :=
  List.zipWith
    (fun rm c =>
      ⟨rm.1.year, rm.1.period, rm.1.cells, rm.2,
        rm.1.year ++ "-" ++ toString rm.2, c⟩)
    pairs chg

/-- `prepare_dataframe` (usefulFunctions.py lines 217-222): parse the month
column (possibly raising `ValueError`), derive `time_label`, sort by
(year, month), and append the 12-period percent change of the target
column.  `sort_values` is modelled as a stable insertion sort; key
uniqueness in merged tables makes the tie order irrelevant to the claims. -/
def prepare_dataframe (df : List Row) (target : String) : Except PyErr (List PreparedRow) :=
  match monthsOf df with
  | none => .error (.valueError "invalid literal for int() with base 10")
  | some pairs =>
    if df.all fun r => (assocFind r.cells target).isSome then
      let sorted := List.insertionSort rowOrd pairs
      let vals := sorted.map fun rm => getCellQ target rm.1.cells
      .ok (buildPrepared sorted (pctChange12 vals))
    else .error .keyError

/-- One element of a series' `data` array as `pd.DataFrame(data)` with
`[['year', 'period', 'value']].astype({'value': 'float64'})` consumes it. -/
def decodeObs (j : Json) : Option Obs :=
  match j with
  | .jobj kvs =>
    match assocFind kvs "year", assocFind kvs "period", assocFind kvs "value" with
    | some (.jstr y), some (.jstr p), some (.jstr v) =>
      (pyFloatParse v).map fun q => ⟨y, p, q⟩
    | _, _, _ => none
  | _ => none

/-- One element of `Results.series` as the parsing loop consumes it. -/
def decodeRawSeries (j : Json) : Option RawSeries :=
  match j with
  | .jobj kvs =>
    let sid : Option (Option String) :=
      match assocFind kvs "seriesID" with
      | none => some none
      | some (.jstr s) => some (some s)
      | some _ => none
    match sid, assocFind kvs "data" with
    | some si, none => some ⟨si, none⟩
    | some si, some (.jarr xs) => (xs.mapM decodeObs).map fun ds => ⟨si, some ds⟩
    | _, _ => none
  | _ => none

/-- Structural view of the fetched `Results.series` value taken by the
parsing loop.  Shape violations (a non-list `series`, a non-dict element,
observation dicts missing `year`/`period`/`value`, or a non-numeric value
string) surface in Python as assorted exceptions deep inside pandas; the
model collapses them into one failure, which no claim distinguishes. -/
def decodeSeries (j : Json) : Except PyErr (List RawSeries) :=
  match j with
  | .jarr xs =>
    match xs.mapM decodeRawSeries with
    | some l => .ok l
    | none => .error .typeError
  | _ => .error .typeError

/-- `BLS` (usefulFunctions.py lines 252-287): fetch, parse, prepare, and
either return the frame or plot it (returning `None`).  The target column
for the change computation is the label of the FIRST `seriesDict` entry
(`series_names[0]`, computed before the request — an empty dict raises
`IndexError` there).  `plot_changes` is an external side effect and is
dropped. -/
def BLS (resp : HttpResponse) (seriesDict : List (String × String))
    (verbose display : Bool) : Except PyErr (Option (List PreparedRow)) :=
  match seriesDict with
  | [] => .error .indexError
  | (_, target) :: _ => do
    let sj ← fetch_bls_data resp
    let sd ← decodeSeries sj
    let df := parse_series_data sd seriesDict verbose
    let out ← prepare_dataframe df target
    if display then pure none else pure (some out)

/-- The value a series with observation list `d` holds at key `k`:
`some v` when an observation with that key exists, else `none`. -/
def dataCell (d : List Obs) (k : String × String) : Option ℚ :=
  (d.find? fun o => decide (obsKey o = k)).map Obs.value

/-- The (seriesID, data) pairs of the series the merging loop does not
skip (those with a non-empty observation list), in loop order. -/
def activePairs (sd : List RawSeries) : List (String × List Obs) :=
  sd.filterMap fun s =>
    if (s.data.getD []).isEmpty then none
    else some (s.seriesID.getD "Unknown", s.data.getD [])

/-- The merging loop restricted to the non-skipped series. -/
def pairFold : List (String × List Obs) → List String → List Row → List String × List Row
  | [], cols, T => (cols, T)
  | (id, d) :: rest, cols, T => pairFold rest (cols ++ [id]) (mergeOuter cols T id d)

/-- Contents of a table at key (y, p) and column label l, read off the
first row with that key: `none` when no row has the key, `some none` when
the row exists but has no column l, `some (some v)` for the cell value
(itself `none` for a null cell). -/
def cellAt (T : List Row) (y p l : String) : Option (Option (Option ℚ)) :=
  (T.find? fun r => decide (keyOf r = (y, p))).map fun r => assocFind r.cells l

/-- Invariant of the merging loop after folding in the series of `hist`:
the accumulated columns are the processed series ids in order, every row
carries exactly those columns, row keys are unique, the key set is the
union of the processed series' key sets, and each row's cell in a
series' column is exactly that series' value at the row's key. -/
structure MergeInv (hist : List (String × List Obs)) (cols : List String)
    (T : List Row) : Prop where
  cols_eq : cols = hist.map Prod.fst
  labels_eq : ∀ r ∈ T, r.cells.map Prod.fst = cols
  keys_nodup : (T.map keyOf).Nodup
  keys_mem : ∀ k, k ∈ T.map keyOf ↔ ∃ pr ∈ hist, k ∈ pr.2.map obsKey
  cell_spec : ∀ r ∈ T, ∀ pr ∈ hist,
    assocFind r.cells pr.1 = some (dataCell pr.2 (keyOf r))

/-- Closed form of a merged-table cell: the value sits in the column of
the first active series whose renamed label is `l`, and is that series'
value at the key. -/
def mergedCellDescr (ps : List (String × List Obs)) (dict : List (String × String))
    (k : String × String) (l : String) : Option (Option ℚ) :=
  match ps.find? fun pr => decide (renameCol dict pr.1 = l) with
  | some pr => some (dataCell pr.2 k)
  | none => none

/-- Concrete two-series response used by the C6/C7 witnesses. -/
def seriesW : List RawSeries :=
  [⟨some "S1", some [⟨"2020", "M01", 1⟩, ⟨"2020", "M02", 2⟩]⟩,
   ⟨some "S2", some [⟨"2020", "M02", 3⟩, ⟨"2020", "M03", 4⟩]⟩]

/-- Label mapping for `seriesW`. -/
def dictW : List (String × String) := [("S1", "X"), ("S2", "Y")]

/-- A concrete 13-month single-series merged table used by witnesses. -/
def dfW : List Row :=
  [⟨"2020", "M01", [("X", some 100)]⟩,
   ⟨"2020", "M02", [("X", some 110)]⟩,
   ⟨"2020", "M03", [("X", some 120)]⟩,
   ⟨"2020", "M04", [("X", some 130)]⟩,
   ⟨"2020", "M05", [("X", some 140)]⟩,
   ⟨"2020", "M06", [("X", some 150)]⟩,
   ⟨"2020", "M07", [("X", some 160)]⟩,
   ⟨"2020", "M08", [("X", some 170)]⟩,
   ⟨"2020", "M09", [("X", some 180)]⟩,
   ⟨"2020", "M10", [("X", some 190)]⟩,
   ⟨"2020", "M11", [("X", some 200)]⟩,
   ⟨"2020", "M12", [("X", some 210)]⟩,
   ⟨"2021", "M01", [("X", some 150)]⟩]

/-- The frame `prepare_dataframe` derives from `dfW`: months parsed,
labels appended, first 12 changes null, and the 13th change
(150 / 100 - 1) * 100 = 50. -/
def outW : List PreparedRow :=
  [⟨"2020", "M01", [("X", some 100)], 1, "2020-1", none⟩,
   ⟨"2020", "M02", [("X", some 110)], 2, "2020-2", none⟩,
   ⟨"2020", "M03", [("X", some 120)], 3, "2020-3", none⟩,
   ⟨"2020", "M04", [("X", some 130)], 4, "2020-4", none⟩,
   ⟨"2020", "M05", [("X", some 140)], 5, "2020-5", none⟩,
   ⟨"2020", "M06", [("X", some 150)], 6, "2020-6", none⟩,
   ⟨"2020", "M07", [("X", some 160)], 7, "2020-7", none⟩,
   ⟨"2020", "M08", [("X", some 170)], 8, "2020-8", none⟩,
   ⟨"2020", "M09", [("X", some 180)], 9, "2020-9", none⟩,
   ⟨"2020", "M10", [("X", some 190)], 10, "2020-10", none⟩,
   ⟨"2020", "M11", [("X", some 200)], 11, "2020-11", none⟩,
   ⟨"2020", "M12", [("X", some 210)], 12, "2020-12", none⟩,
   ⟨"2021", "M01", [("X", some 150)], 1, "2021-1", some ((150 / 100 - 1) * 100)⟩]

/-- A sorted 14-month single-series table with an interior null at
(2020, M02), used to exhibit the forward-fill behaviour of the change
derivation. -/
def dfC1 : List Row :=
  [⟨"2020", "M01", [("X", some 100)]⟩,
   ⟨"2020", "M02", [("X", none)]⟩,
   ⟨"2020", "M03", [("X", some 110)]⟩,
   ⟨"2020", "M04", [("X", some 115)]⟩,
   ⟨"2020", "M05", [("X", some 120)]⟩,
   ⟨"2020", "M06", [("X", some 125)]⟩,
   ⟨"2020", "M07", [("X", some 130)]⟩,
   ⟨"2020", "M08", [("X", some 135)]⟩,
   ⟨"2020", "M09", [("X", some 142)]⟩,
   ⟨"2020", "M10", [("X", some 145)]⟩,
   ⟨"2020", "M11", [("X", some 148)]⟩,
   ⟨"2020", "M12", [("X", some 149)]⟩,
   ⟨"2021", "M01", [("X", some 150)]⟩,
   ⟨"2021", "M02", [("X", some 140)]⟩]

/-- The frame `prepare_dataframe` derives from `dfC1`: at row 13 the
12-back cell (2020, M02) is null, yet the pad default forward-fills it
with 100 and computes change (140 / 100 - 1) * 100 rather than null. -/
def outC1 : List PreparedRow :=
  [⟨"2020", "M01", [("X", some 100)], 1, "2020-1", none⟩,
   ⟨"2020", "M02", [("X", none)], 2, "2020-2", none⟩,
   ⟨"2020", "M03", [("X", some 110)], 3, "2020-3", none⟩,
   ⟨"2020", "M04", [("X", some 115)], 4, "2020-4", none⟩,
   ⟨"2020", "M05", [("X", some 120)], 5, "2020-5", none⟩,
   ⟨"2020", "M06", [("X", some 125)], 6, "2020-6", none⟩,
   ⟨"2020", "M07", [("X", some 130)], 7, "2020-7", none⟩,
   ⟨"2020", "M08", [("X", some 135)], 8, "2020-8", none⟩,
   ⟨"2020", "M09", [("X", some 142)], 9, "2020-9", none⟩,
   ⟨"2020", "M10", [("X", some 145)], 10, "2020-10", none⟩,
   ⟨"2020", "M11", [("X", some 148)], 11, "2020-11", none⟩,
   ⟨"2020", "M12", [("X", some 149)], 12, "2020-12", none⟩,
   ⟨"2021", "M01", [("X", some 150)], 1, "2021-1", some ((150 / 100 - 1) * 100)⟩,
   ⟨"2021", "M02", [("X", some 140)], 2, "2021-2", some ((140 / 100 - 1) * 100)⟩]

/-! ### Helper lemmas -/

theorem assocFind_eq_none_iff_any {α : Type} (l : List (String × α)) (k : String) :
    assocFind l k = none ↔ (l.any fun kv => kv.1 = k) = false := by
  induction l with
  | nil => simp [assocFind]
  | cons kv rest ih =>
    by_cases h : kv.1 = k
    · simp [assocFind, h]
    · simp [assocFind, h, ih]

theorem invalid_ne_transport (s : String) :
    ("Invalid API response format" : String) ≠ "API request failed with status code " ++ s := by
  intro h
  have h1 : ("Invalid API response format" : String).length
      = ("API request failed with status code " ++ s).length := by rw [h]
  rw [String.length_append] at h1
  have e1 : ("Invalid API response format" : String).length = 27 := rfl
  have e2 : ("API request failed with status code " : String).length = 36 := rfl
  rw [e1, e2] at h1
  omega

theorem fetchEnvelope_error_cases (body : Json) (e : PyErr)
    (h : fetchEnvelope body = .error e) :
    e = .typeError ∨ e = .keyError ∨ e = .valueError "Invalid API response format" := by
  cases body with
  | jobj kvs =>
    simp only [fetchEnvelope, pyContains, pyGetItem, Bind.bind, Except.bind] at h
    by_cases hR : (kvs.any fun kv => kv.1 = "Results") = true
    · rw [if_pos hR] at h
      cases hfind : assocFind kvs "Results" with
      | none => rw [hfind] at h; simp at h; simp [h]
      | some res =>
        rw [hfind] at h
        simp only [] at h
        cases res with
        | jobj kvs2 =>
          simp only [pyContains, Bind.bind, Except.bind] at h
          by_cases hS : (kvs2.any fun kv => kv.1 = "series") = true
          · rw [if_pos hS] at h
            cases hfind2 : assocFind kvs2 "series" with
            | none => rw [hfind2] at h; simp at h; simp [h]
            | some sj => rw [hfind2] at h; simp at h
          · rw [if_neg hS] at h
            simp at h
            simp [h]
        | jarr xs =>
          simp only [pyContains, Bind.bind, Except.bind] at h
          split at h
          · simp at h
            simp [h]
          · simp at h
            simp [h]
        | jstr s =>
          simp only [pyContains, Bind.bind, Except.bind] at h
          split at h
          · simp at h
            simp [h]
          · simp at h
            simp [h]
        | jnull => simp [pyContains, Bind.bind, Except.bind] at h; simp [h]
        | jbool b => simp [pyContains, Bind.bind, Except.bind] at h; simp [h]
        | jnum q => simp [pyContains, Bind.bind, Except.bind] at h; simp [h]
    · rw [if_neg hR] at h
      simp at h
      simp [h]
  | jarr xs =>
    simp only [fetchEnvelope, pyContains, pyGetItem, Bind.bind, Except.bind] at h
    split at h
    · simp at h; simp [h]
    · simp at h; simp [h]
  | jstr s =>
    simp only [fetchEnvelope, pyContains, pyGetItem, Bind.bind, Except.bind] at h
    split at h
    · simp at h; simp [h]
    · simp at h; simp [h]
  | jnull => simp [fetchEnvelope, pyContains, Bind.bind, Except.bind] at h; simp [h]
  | jbool b => simp [fetchEnvelope, pyContains, Bind.bind, Except.bind] at h; simp [h]
  | jnum q => simp [fetchEnvelope, pyContains, Bind.bind, Except.bind] at h; simp [h]

/-! ### C5: the JSON document loader -/

/-- C5: `readJSONfile` realises exactly four mutually exclusive outcomes:
a non-string input returns the message `input should be a string`; a string
path with no readable file returns `file does not exist`; an existing file
whose contents do not parse returns
`The file does not contain valid json`; and an existing file with valid
JSON returns exactly the document the JSON parser produces for its
contents. -/
theorem C5_readJSONfile_four_outcomes (fileContents : String → Option String)
    (loads : String → Option Json) :
    (∀ fname : PyVal, (∀ s, fname ≠ .strV s) →
      readJSONfile fname fileContents loads = .jstr "input should be a string") ∧
    (∀ s, fileContents s = none →
      readJSONfile (.strV s) fileContents loads = .jstr "file does not exist") ∧
    (∀ s c, fileContents s = some c → loads c = none →
      readJSONfile (.strV s) fileContents loads =
        .jstr "The file does not contain valid json") ∧
    (∀ s c j, fileContents s = some c → loads c = some j →
      readJSONfile (.strV s) fileContents loads = j) := by
  refine ⟨?_, ?_, ?_, ?_⟩
  · intro fname h
    cases fname with
    | strV s => exact absurd rfl (h s)
    | intV n => rfl
    | boolV b => rfl
    | floatV q => rfl
    | noneV => rfl
  · intro s h
    simp [readJSONfile, h]
  · intro s c h1 h2
    simp [readJSONfile, h1, h2]
  · intro s c j h1 h2
    simp [readJSONfile, h1, h2]

/-- Witness for C5: each of the four outcomes at a concrete input. -/
theorem C5_witness :
    readJSONfile (.intV 3) (fun _ => none) (fun _ => none) =
      .jstr "input should be a string" ∧
    readJSONfile (.strV "absent.json") (fun _ => none) (fun _ => none) =
      .jstr "file does not exist" ∧
    readJSONfile (.strV "bad.json") (fun _ => some "oops") (fun _ => none) =
      .jstr "The file does not contain valid json" ∧
    readJSONfile (.strV "good.json") (fun _ => some "[1]")
      (fun c => if c = "[1]" then some (.jarr [.jnum 1]) else none) = .jarr [.jnum 1] := by
  refine ⟨?_, ?_, ?_, ?_⟩
  · exact (C5_readJSONfile_four_outcomes (fun _ => none) (fun _ => none)).1 (.intV 3)
      (fun s h => PyVal.noConfusion h)
  · exact (C5_readJSONfile_four_outcomes (fun _ => none) (fun _ => none)).2.1 "absent.json" rfl
  · exact (C5_readJSONfile_four_outcomes (fun _ => some "oops") (fun _ => none)).2.2.1
      "bad.json" "oops" rfl rfl
  · exact (C5_readJSONfile_four_outcomes (fun _ => some "[1]")
      (fun c => if c = "[1]" then some (.jarr [.jnum 1]) else none)).2.2.2
      "good.json" "[1]" (Json.jarr [Json.jnum 1]) rfl rfl

/-! ### C2: the transport check of the fetch -/

/-- C2 counterexample: status 201 is a 2xx success status and the body is a
well-formed envelope, yet `fetch_bls_data` fails with the transport error,
because the code tests `status_code != 200`, not "not 2xx". -/
theorem C2_counterexample :
    fetch_bls_data ⟨201, .jobj [("Results", .jobj [("series", .jarr [])])]⟩ =
      .error (.valueError "API request failed with status code 201") := rfl

/-- C2 (amended): the fetch fails with the transport error `ValueError
("API request failed with status code N")` and returns no table exactly
when the status is not 200; for status 200 it never produces the
transport error (whatever else the body makes it do). -/
theorem C2_amended_transport_check (resp : HttpResponse) :
    (resp.status_code ≠ 200 →
      fetch_bls_data resp =
        .error (.valueError
          ("API request failed with status code " ++ toString resp.status_code))) ∧
    (resp.status_code = 200 → ∀ s,
      fetch_bls_data resp ≠
        .error (.valueError ("API request failed with status code " ++ s))) := by
  constructor
  · intro h
    simp [fetch_bls_data, h]
  · intro h200 s habs
    rw [fetch_bls_data, if_neg (by simp [h200])] at habs
    rcases fetchEnvelope_error_cases resp.body _ habs with h | h | h
    · exact PyErr.noConfusion h
    · exact PyErr.noConfusion h
    · exact invalid_ne_transport s (by injection h with hh; exact hh.symm)

/-- Witness for C2 (amended) at concrete statuses 404 and 200. -/
theorem C2_witness :
    fetch_bls_data ⟨404, Json.jnull⟩ =
      .error (.valueError "API request failed with status code 404") ∧
    fetch_bls_data ⟨200, Json.jnull⟩ ≠
      .error (.valueError "API request failed with status code 200") := by
  constructor
  · exact (C2_amended_transport_check ⟨404, Json.jnull⟩).1 (by decide)
  · intro h
    exact (C2_amended_transport_check ⟨200, Json.jnull⟩).2 rfl "200"
      (by rw [h]; rfl)

/-! ### C9: the envelope check of the fetch -/

/-- C9 counterexample: with status 200 and body `{'Results': 5}` the body
lacks the series collection, but the code raises `TypeError` (from
`'series' in json_data['Results']` on a number), not the
`MalformedResponse` error `ValueError("Invalid API response format")`. -/
theorem C9_counterexample :
    fetch_bls_data ⟨200, .jobj [("Results", .jnum 5)]⟩ = .error .typeError ∧
    PyErr.typeError ≠ PyErr.valueError "Invalid API response format" := by
  exact ⟨rfl, by decide⟩

/-- C9 (amended): for a 200 response whose body is a JSON object, the fetch
fails with `ValueError("Invalid API response format")` when the body has no
`Results` member or when `Results` is an object with no `series` member,
and returns `Results.series` when both members exist; a `Results` value
that is not an object instead makes Python's membership test or
subscripting raise (e.g. `TypeError`). -/
theorem C9_amended_envelope (kvs : List (String × Json)) :
    (assocFind kvs "Results" = none →
      fetch_bls_data ⟨200, .jobj kvs⟩ =
        .error (.valueError "Invalid API response format")) ∧
    (∀ kvs2, assocFind kvs "Results" = some (.jobj kvs2) →
      assocFind kvs2 "series" = none →
      fetch_bls_data ⟨200, .jobj kvs⟩ =
        .error (.valueError "Invalid API response format")) ∧
    (∀ kvs2 sj, assocFind kvs "Results" = some (.jobj kvs2) →
      assocFind kvs2 "series" = some sj →
      fetch_bls_data ⟨200, .jobj kvs⟩ = .ok sj) := by
  have h200 : fetch_bls_data ⟨200, .jobj kvs⟩ = fetchEnvelope (.jobj kvs) := by
    simp [fetch_bls_data]
  refine ⟨?_, ?_, ?_⟩
  · intro h
    rw [h200]
    have hany := (assocFind_eq_none_iff_any kvs "Results").mp h
    simp [fetchEnvelope, pyContains, Bind.bind, Except.bind, hany]
  · intro kvs2 hfind h2
    rw [h200]
    have hany : (kvs.any fun kv => kv.1 = "Results") = true := by
      rcases hany : kvs.any fun kv => kv.1 = "Results" with _ | _
      · rw [(assocFind_eq_none_iff_any kvs "Results").mpr hany] at hfind
        exact Option.noConfusion hfind
      · rfl
    have hany2 := (assocFind_eq_none_iff_any kvs2 "series").mp h2
    simp [fetchEnvelope, pyContains, pyGetItem, Bind.bind, Except.bind, hany, hfind, hany2]
  · intro kvs2 sj hfind h2
    rw [h200]
    have hany : (kvs.any fun kv => kv.1 = "Results") = true := by
      rcases hany : kvs.any fun kv => kv.1 = "Results" with _ | _
      · rw [(assocFind_eq_none_iff_any kvs "Results").mpr hany] at hfind
        exact Option.noConfusion hfind
      · rfl
    have hany2 : (kvs2.any fun kv => kv.1 = "series") = true := by
      rcases hany2 : kvs2.any fun kv => kv.1 = "series" with _ | _
      · rw [(assocFind_eq_none_iff_any kvs2 "series").mpr hany2] at h2
        exact Option.noConfusion h2
      · rfl
    simp [fetchEnvelope, pyContains, pyGetItem, Bind.bind, Except.bind, hany, hfind, hany2, h2]

/-- Witness for C9 (amended): the three envelope outcomes at concrete
bodies. -/
theorem C9_witness :
    fetch_bls_data ⟨200, .jobj [("x", .jnum 1)]⟩ =
      .error (.valueError "Invalid API response format") ∧
    fetch_bls_data ⟨200, .jobj [("Results", .jobj [("y", .jnum 2)])]⟩ =
      .error (.valueError "Invalid API response format") ∧
    fetch_bls_data ⟨200, .jobj [("Results", .jobj [("series", .jarr [])])]⟩ =
      .ok (.jarr []) := by
  refine ⟨?_, ?_, ?_⟩
  · exact (C9_amended_envelope [("x", .jnum 1)]).1 rfl
  · exact (C9_amended_envelope [("Results", .jobj [("y", .jnum 2)])]).2.1
      [("y", .jnum 2)] rfl rfl
  · exact (C9_amended_envelope [("Results", .jobj [("series", .jarr [])])]).2.2
      [("series", .jarr [])] (.jarr []) rfl rfl

/-! ### C3: the zero-observation soft skip -/

/-- C3: a series with an empty observation list is skipped without failure
by `parse_series_data` whether or not `verbose` is set, but in
`multiSeries` the skip guard is nested under `if verbose:`, so with
`verbose=False` the empty series reaches the column selection on an empty
frame and fails with `KeyError` — the refactored loop and the spec show
the unconditional skip is the intent, so the `multiSeries` nesting is a
code bug.  The theorem evaluates both loops at the failing input. -/
theorem C3_empty_series_skip :
    multiSeriesLoop false [⟨some "LNS14000000", some []⟩] [] [] = .error .keyError ∧
    multiSeriesLoop true [⟨some "LNS14000000", some []⟩] [] [] = .ok ([], []) ∧
    parse_series_data [⟨some "LNS14000000", some []⟩] [] false = [] ∧
    parse_series_data [⟨some "LNS14000000", some []⟩] [] true = [] := by
  exact ⟨rfl, rfl, rfl, rfl⟩

/-! ### C4: the single-value inflation entry point -/

/-- C4: `inflation` validates its inputs and computes the rounded change.
A non-integer lag, a lag outside 0..12, or a non-string series identifier
is answered with the corresponding descriptive error string (returned, not
raised); for a valid lag `n`, a string identifier, and a successful API
response whose data entries at positions `n` and `12+n` carry values
parsing to `qNew` and `qOld`, the result is
`round((qNew / qOld - 1) * 100, digits)`. -/
theorem C4_inflation_validation_and_formula (digits : ℤ) :
    (∀ lag varname r, (∀ n, lag ≠ PyVal.intV n) →
      inflation lag varname digits r = .ok (.ostr "lag should be an integer")) ∧
    (∀ n varname r, (12 < n ∨ n < 0) →
      inflation (.intV n) varname digits r =
        .ok (.ostr "lag should be an integer between 0 and 12, including.")) ∧
    (∀ n varname r, 0 ≤ n → n ≤ 12 → (∀ s, varname ≠ PyVal.strV s) →
      inflation (.intV n) varname digits r =
        .ok (.ostr "variable name should be a string (or left out)")) ∧
    (∀ n v ds eNew eOld vNew vOld qNew qOld, 0 ≤ n → n ≤ 12 →
      pyListIndex ds n = .ok eNew →
      pyListIndex ds (12 + n) = .ok eOld →
      pyGetItem eNew "value" = .ok vNew →
      pyGetItem eOld "value" = .ok vOld →
      pyFloatOfJson vNew = .ok qNew →
      pyFloatOfJson vOld = .ok qOld →
      qOld ≠ 0 →
      inflation (.intV n) (.strV v) digits
        (.jobj [("status", .jstr "REQUEST_SUCCEEDED"),
                ("Results", .jobj [("series", .jarr [.jobj [("data", .jarr ds)]])])]) =
        .ok (.onum (pyRound ((qNew / qOld - 1) * 100) digits))) := by
  refine ⟨?_, ?_, ?_, ?_⟩
  · intro lag varname r h
    cases lag with
    | intV n => exact absurd rfl (h n)
    | strV s => rfl
    | boolV b => rfl
    | floatV q => rfl
    | noneV => rfl
  · intro n varname r h
    simp only [inflation]
    rw [if_pos (by omega)]
  · intro n varname r h0 h12 h
    simp only [inflation]
    rw [if_neg (by omega)]
  · intro n v ds eNew eOld vNew vOld qNew qOld h0 h12 hiN hiO hvN hvO hfN hfO hz
    simp only [inflation]
    rw [if_neg (by omega)]
    have e0 : pyListIndex [Json.jobj [("data", Json.jarr ds)]] 0 =
        .ok (Json.jobj [("data", Json.jarr ds)]) := rfl
    have eStatus : pyGetItem (Json.jobj [("status", Json.jstr "REQUEST_SUCCEEDED"),
        ("Results", Json.jobj [("series", Json.jarr [Json.jobj [("data", Json.jarr ds)]])])])
        "status" = .ok (Json.jstr "REQUEST_SUCCEEDED") := rfl
    have eResults : pyGetItem (Json.jobj [("status", Json.jstr "REQUEST_SUCCEEDED"),
        ("Results", Json.jobj [("series", Json.jarr [Json.jobj [("data", Json.jarr ds)]])])])
        "Results" = .ok (Json.jobj [("series", Json.jarr [Json.jobj [("data", Json.jarr ds)]])]) := rfl
    have eSeries : pyGetItem (Json.jobj [("series", Json.jarr [Json.jobj [("data", Json.jarr ds)]])])
        "series" = .ok (Json.jarr [Json.jobj [("data", Json.jarr ds)]]) := rfl
    have eData : pyGetItem (Json.jobj [("data", Json.jarr ds)]) "data" = .ok (Json.jarr ds) := rfl
    simp [Bind.bind, Except.bind, jsonIsStr, e0, eStatus, eResults, eSeries, eData,
      hiN, hiO, hvN, hvO, hfN, hfO, hz]

/-- Witness for C4: with the stub response carrying new=310 at lag 0 and
old=300 twelve positions later, `inflation(lag=0)` returns 3.33 (digits=2)
without raising; and each validation error string at a concrete bad
input. -/
theorem C4_witness :
    inflation (.intV 0) (.strV "CUUR0000SA0") 2
      (.jobj [("status", .jstr "REQUEST_SUCCEEDED"),
              ("Results", .jobj [("series", .jarr [.jobj [("data",
                .jarr (Json.jobj [("value", Json.jstr "310")] ::
                  List.replicate 12 (Json.jobj [("value", Json.jstr "300")])))]])])]) =
      .ok (.onum 3.33) ∧
    inflation (.strV "oops") (.strV "CUUR0000SA0") 2 .jnull =
      .ok (.ostr "lag should be an integer") ∧
    inflation (.intV 13) (.strV "CUUR0000SA0") 2 .jnull =
      .ok (.ostr "lag should be an integer between 0 and 12, including.") ∧
    inflation (.intV 3) (.intV 7) 2 .jnull =
      .ok (.ostr "variable name should be a string (or left out)") := by
  refine ⟨?_, ?_, ?_, ?_⟩
  · have h := (C4_inflation_validation_and_formula 2).2.2.2 0 "CUUR0000SA0"
      (Json.jobj [("value", Json.jstr "310")] ::
        List.replicate 12 (Json.jobj [("value", Json.jstr "300")]))
      (Json.jobj [("value", Json.jstr "310")]) (Json.jobj [("value", Json.jstr "300")])
      (Json.jstr "310") (Json.jstr "300") 310 300
      (by omega) (by omega) rfl rfl rfl rfl rfl rfl (by norm_num)
    rw [h]
    have : pyRound ((310 / 300 - 1 : ℚ) * 100) 2 = 3.33 := by
      norm_num [pyRound, roundHalfEven, Int.floor_eq_iff]
    rw [this]
  · exact (C4_inflation_validation_and_formula 2).1 (.strV "oops") (.strV "CUUR0000SA0")
      .jnull (fun n h => PyVal.noConfusion h)
  · exact (C4_inflation_validation_and_formula 2).2.1 13 (.strV "CUUR0000SA0") .jnull
      (by omega)
  · exact (C4_inflation_validation_and_formula 2).2.2.1 3 (.intV 7) .jnull
      (by omega) (by omega) (fun s h => PyVal.noConfusion h)

/-! ### prepare_dataframe: shape lemmas shared by C1, C8 and C10 -/

theorem pctChange12_length (vs : List (Option ℚ)) : (pctChange12 vs).length = vs.length := by
  simp [pctChange12]

theorem buildPrepared_length (pairs : List (Row × ℤ)) (chg : List (Option ℚ)) :
    (buildPrepared pairs chg).length = min pairs.length chg.length := by
  simp [buildPrepared]

theorem prepare_ok_shape (df : List Row) (t : String) (out : List PreparedRow)
    (h : prepare_dataframe df t = .ok out) :
    ∃ pairs, monthsOf df = some pairs ∧
      out = buildPrepared (List.insertionSort rowOrd pairs)
        (pctChange12 ((List.insertionSort rowOrd pairs).map fun rm => getCellQ t rm.1.cells)) := by
  unfold prepare_dataframe at h
  split at h
  next => exact Except.noConfusion h
  next pairs hm =>
    split at h
    next hall =>
      refine ⟨pairs, hm, ?_⟩
      simp only [Except.ok.injEq] at h
      exact h.symm
    next hall => exact Except.noConfusion h

theorem buildPrepared_map_toRow (pairs : List (Row × ℤ)) (chg : List (Option ℚ))
    (hlen : pairs.length ≤ chg.length) :
    (buildPrepared pairs chg).map toRow = pairs.map Prod.fst := by
  induction pairs generalizing chg with
  | nil => rfl
  | cons rm rest ih =>
    cases chg with
    | nil => simp at hlen
    | cons c cs =>
      simp only [buildPrepared, List.zipWith_cons_cons, List.map_cons]
      refine congrArg₂ List.cons rfl ?_
      exact ih cs (by simpa using hlen)

theorem ffillAux_getD_some (vs : List (Option ℚ)) (last : Option ℚ) (j : ℕ) (q : ℚ)
    (h : vs.getD j none = some q) : (ffillAux last vs).getD j none = some q := by
  induction vs generalizing last j with
  | nil => simp at h
  | cons v rest ih =>
    cases j with
    | zero =>
      simp only [List.getD_cons_zero] at h
      subst h
      rfl
    | succ j2 =>
      simp only [List.getD_cons_succ] at h
      cases v with
      | some q2 =>
        simpa only [ffillAux, List.getD_cons_succ] using ih (some q2) j2 h
      | none =>
        simpa only [ffillAux, List.getD_cons_succ] using ih last j2 h

theorem prepare_change_spec (df : List Row) (t : String) (out : List PreparedRow)
    (h : prepare_dataframe df t = .ok out) (i : ℕ) (hi : i < out.length) :
    out[i].change =
      if i < 12 then none
      else
        match (ffill (out.map fun r => getCellQ t r.cells)).getD (i - 12) none,
              (ffill (out.map fun r => getCellQ t r.cells)).getD i none with
        | some a, some b => some ((b / a - 1) * 100)
        | _, _ => none := by
  obtain ⟨pairs, hm, hout⟩ := prepare_ok_shape df t out h
  set sorted := List.insertionSort rowOrd pairs with hsorted
  set vals := sorted.map fun rm => getCellQ t rm.1.cells with hvals
  have hvlen : vals.length = sorted.length := by simp [hvals]
  have hclen : (pctChange12 vals).length = sorted.length := by
    rw [pctChange12_length, hvlen]
  have hcol : out.map (fun r => getCellQ t r.cells) = vals := by
    have h1 : out.map (fun r => getCellQ t r.cells) =
        (out.map toRow).map fun r => getCellQ t r.cells := by
      rw [List.map_map]
      rfl
    rw [h1, hout, buildPrepared_map_toRow sorted _ (le_of_eq hclen.symm), List.map_map]
    rw [hvals]
    rfl
  rw [hcol]
  subst hout
  simp only [buildPrepared, List.getElem_zipWith]
  simp only [pctChange12, List.getElem_map, List.getElem_range]

/-! ### C1: the derived change column -/

/-- C1 counterexample: in `dfC1` the 12-back cell of the last row, at key
(2020, M02), is null, so the claim demands a null change there; but
`pct_change`'s pad default forward-fills that cell with 100 and row 13
receives the computed change (140 / 100 - 1) * 100, not null. -/
theorem C1_counterexample :
    prepare_dataframe dfC1 "X" = .ok outC1 ∧
    (outC1.get ⟨13, by decide⟩).change ≠ none := by
  refine ⟨rfl, ?_⟩
  intro hc
  exact Option.noConfusion hc

/-- C1 (amended): in the frame returned by `prepare_dataframe` (the merged
table in sorted order), the change column is the positional 12-back
percent change of the FORWARD-FILLED target column (the pandas
`fill_method='pad'` default): null for the first 12 rows and exactly where
the filled current or 12-back value is still null (no earlier non-null
value exists); wherever the current and 12-back original cells are both
non-null — in particular on gap-free tables — this agrees with the
claim's formula `change[i] = (target[i] / target[i-12] - 1) * 100`.  A row
whose 12-back cell is null but has an earlier non-null value receives a
computed change, not the null the claim asserts. -/
theorem C1_amended_change_column (df : List Row) (target : String) (out : List PreparedRow)
    (h : prepare_dataframe df target = .ok out) (i : ℕ) (hi : i < out.length) :
    (out[i].change =
      if i < 12 then none
      else
        match (ffill (out.map fun r => getCellQ target r.cells)).getD (i - 12) none,
              (ffill (out.map fun r => getCellQ target r.cells)).getD i none with
        | some a, some b => some ((b / a - 1) * 100)
        | _, _ => none) ∧
    (12 ≤ i → ∀ a b, getCellQ target out[i - 12].cells = some a →
      getCellQ target out[i].cells = some b →
      out[i].change = some ((b / a - 1) * 100)) := by
  refine ⟨prepare_change_spec df target out h i hi, ?_⟩
  intro h12 a b ha hb
  rw [prepare_change_spec df target out h i hi, if_neg (by omega)]
  have hga : (out.map fun r => getCellQ target r.cells).getD (i - 12) none = some a := by
    rw [List.getD_eq_getElem _ _ (by rw [List.length_map]; omega), List.getElem_map]
    exact ha
  have hgb : (out.map fun r => getCellQ target r.cells).getD i none = some b := by
    rw [List.getD_eq_getElem _ _ (by rw [List.length_map]; exact hi), List.getElem_map]
    exact hb
  have hfa : (ffill (out.map fun r => getCellQ target r.cells)).getD (i - 12) none = some a :=
    ffillAux_getD_some _ none _ a hga
  have hfb : (ffill (out.map fun r => getCellQ target r.cells)).getD i none = some b :=
    ffillAux_getD_some _ none _ b hgb
  rw [hfa, hfb]

/-! ### C8: month parsing and time_label -/

/-- C8 counterexample: the period token `"13"` is not of the form
`'M' + digits`, so the claim demands a `PeriodFormatError`; but
`int(x.replace('M', ''))` simply parses `"13"` and the derivation succeeds
with month 13. -/
theorem C8_counterexample :
    prepare_dataframe [⟨"2020", "13", [("X", some 1)]⟩] "X" =
      .ok [⟨"2020", "13", [("X", some 1)], 13, "2020-13", none⟩] := rfl

theorem monthsOf_mem (df : List Row) (pairs : List (Row × ℤ))
    (h : monthsOf df = some pairs) :
    ∀ rm ∈ pairs, monthOf rm.1.period = some rm.2 := by
  induction df generalizing pairs with
  | nil =>
    simp only [monthsOf] at h
    cases h
    simp
  | cons r rest ih =>
    simp only [monthsOf, Bind.bind, Option.bind] at h
    cases hm : monthOf r.period with
    | none => rw [hm] at h; exact Option.noConfusion h
    | some m =>
      rw [hm] at h
      cases hrest : monthsOf rest with
      | none => rw [hrest] at h; exact Option.noConfusion h
      | some ms =>
        rw [hrest] at h
        cases h
        intro rm hrm
        rcases List.mem_cons.mp hrm with hrm | hrm
        · subst hrm; exact hm
        · exact ih ms hrest rm hrm

theorem monthsOf_none (df : List Row) (r : Row) (hr : r ∈ df)
    (h : monthOf r.period = none) : monthsOf df = none := by
  induction df with
  | nil => cases hr
  | cons x rest ih =>
    rcases List.mem_cons.mp hr with hx | hx
    · subst hx
      simp [monthsOf, Bind.bind, Option.bind, h]
    · simp only [monthsOf, Bind.bind, Option.bind]
      cases hm : monthOf x.period with
      | none => rfl
      | some m => rw [ih hx]

theorem mem_buildPrepared (pairs : List (Row × ℤ)) (chg : List (Option ℚ))
    (r : PreparedRow) (hr : r ∈ buildPrepared pairs chg) :
    ∃ rm ∈ pairs, r.year = rm.1.year ∧ r.period = rm.1.period ∧
      r.cells = rm.1.cells ∧ r.month = rm.2 ∧
      r.time_label = rm.1.year ++ "-" ++ toString rm.2 := by
  induction pairs generalizing chg with
  | nil => cases hr
  | cons rm rest ih =>
    cases chg with
    | nil => cases hr
    | cons c cs =>
      rcases List.mem_cons.mp hr with hx | hx
      · exact ⟨rm, List.mem_cons_self rm rest, by subst hx; exact rfl,
          by subst hx; exact rfl, by subst hx; exact rfl, by subst hx; exact rfl,
          by subst hx; exact rfl⟩
      · obtain ⟨rm2, hrm2, hfields⟩ := ih cs hx
        exact ⟨rm2, List.mem_cons_of_mem rm hrm2, hfields⟩

/-- C8 (amended): `month` equals `int` applied to the period token with
EVERY `'M'` character removed (not just a leading marker), and the
derivation fails with `ValueError` exactly when some de-M'd token is not
an integer literal — a token that is not of the form `'M' + digits` but
whose remainder is numeric (such as `"13"`) succeeds rather than raising a
`PeriodFormatError`; `time_label` is the concatenation of year, `'-'` and
month, as claimed. -/
theorem C8_amended_month_and_label :
    (∀ df t out, prepare_dataframe df t = .ok out →
      ∀ r ∈ out, some r.month = pyIntParse (stripM r.period) ∧
        r.time_label = r.year ++ "-" ++ toString r.month) ∧
    (∀ df t r, r ∈ df → pyIntParse (stripM r.period) = none →
      prepare_dataframe df t = .error (.valueError "invalid literal for int() with base 10")) := by
  constructor
  · intro df t out h r hr
    obtain ⟨pairs, hm, hout⟩ := prepare_ok_shape df t out h
    rw [hout] at hr
    obtain ⟨rm, hrm, hy, hp, hc, hmo, ht⟩ := mem_buildPrepared _ _ r hr
    have hrm2 : rm ∈ pairs :=
      (List.perm_insertionSort rowOrd pairs).mem_iff.mp hrm
    have := monthsOf_mem df pairs hm rm hrm2
    constructor
    · rw [hmo, hp]
      exact (this.symm.trans rfl : some rm.2 = monthOf rm.1.period)
    · rw [ht, hy, hmo]
  · intro df t r hr hnone
    unfold prepare_dataframe
    rw [monthsOf_none df r hr hnone]

/-- Witness for C1 (amended) at the concrete gap-free table `dfW`: row 12's
change is 50 via the original-values clause, and row 0's change is null. -/
theorem C1_witness :
    prepare_dataframe dfW "X" = .ok outW ∧
    (outW.get ⟨12, by decide⟩).change = some 50 ∧
    (outW.get ⟨0, by decide⟩).change = none := by
  have h : prepare_dataframe dfW "X" = .ok outW := rfl
  refine ⟨h, ?_, ?_⟩
  · have h12 := (C1_amended_change_column dfW "X" outW h 12 (by decide)).2
      (by omega) 100 150 rfl rfl
    rw [List.get_eq_getElem, h12]
    norm_num
  · have h0 := (C1_amended_change_column dfW "X" outW h 0 (by decide)).1
    rw [List.get_eq_getElem, h0]
    rfl

/-- Witness for C8 (amended): the parsed month and time label of a
concrete row, and the `ValueError` on a non-numeric de-M'd token. -/
theorem C8_witness :
    (some (7 : ℤ) = pyIntParse (stripM "M07") ∧
      ("2020-7" : String) = "2020" ++ "-" ++ toString (7 : ℤ)) ∧
    prepare_dataframe [⟨"2021", "Mxx", [("X", some 1)]⟩] "X" =
      .error (.valueError "invalid literal for int() with base 10") := by
  constructor
  · exact C8_amended_month_and_label.1 [⟨"2020", "M07", [("X", some 2)]⟩] "X"
      [⟨"2020", "M07", [("X", some 2)], 7, "2020-7", none⟩] rfl
      ⟨"2020", "M07", [("X", some 2)], 7, "2020-7", none⟩ (List.mem_singleton.mpr rfl)
  · exact C8_amended_month_and_label.2 [⟨"2021", "Mxx", [("X", some 1)]⟩] "X"
      ⟨"2021", "Mxx", [("X", some 1)]⟩ (List.mem_singleton.mpr rfl) rfl

/-! ### Association-list and key lemmas for the merge invariant -/

theorem assocFind_append_left {α : Type} (xs ys : List (String × α)) (k : String) (v : α)
    (h : assocFind xs k = some v) : assocFind (xs ++ ys) k = some v := by
  induction xs with
  | nil => exact Option.noConfusion h
  | cons kv rest ih =>
    by_cases hk : kv.1 = k
    · simpa [assocFind, hk] using by simpa [assocFind, hk] using h
    · rw [List.cons_append, show (kv :: (rest ++ ys)) = kv :: (rest ++ ys) from rfl]
      simp only [assocFind, hk, if_neg hk] at h ⊢
      exact ih h

theorem assocFind_append_right {α : Type} (xs ys : List (String × α)) (k : String)
    (h : assocFind xs k = none) : assocFind (xs ++ ys) k = assocFind ys k := by
  induction xs with
  | nil => rfl
  | cons kv rest ih =>
    by_cases hk : kv.1 = k
    · simp [assocFind, hk] at h
    · simp only [assocFind, if_neg hk] at h
      rw [List.cons_append]
      simp only [assocFind, if_neg hk]
      exact ih h

theorem assocFind_eq_none_of_not_mem {α : Type} (xs : List (String × α)) (k : String)
    (h : k ∉ xs.map Prod.fst) : assocFind xs k = none := by
  induction xs with
  | nil => rfl
  | cons kv rest ih =>
    simp only [List.map_cons, List.mem_cons] at h
    push_neg at h
    have hne : ¬kv.1 = k := fun he => h.1 he.symm
    simp only [assocFind, if_neg hne]
    exact ih h.2

theorem assocFind_mapNone (cols : List String) (k : String) :
    assocFind (cols.map fun c => (c, (none : Option ℚ))) k =
      if k ∈ cols then some none else none := by
  induction cols with
  | nil => rfl
  | cons c rest ih =>
    by_cases hk : c = k
    · subst hk
      simp [assocFind]
    · have hkc : ¬k = c := fun he => hk he.symm
      simp only [List.map_cons, assocFind, if_neg hk, ih, List.mem_cons]
      by_cases hm : k ∈ rest
      · simp [hm]
      · simp [hm, hkc]

theorem any_key_eq_false (T : List Row) (k : String × String) :
    (T.any fun lr => decide (keyOf lr = k)) = false ↔ k ∉ T.map keyOf := by
  simp [List.any_eq_true]

theorem filterKey_nil_of_not_mem (d : List Obs) (k : String × String)
    (h : k ∉ d.map obsKey) :
    d.filter (fun o => decide (obsKey o = k)) = [] := by
  rw [List.filter_eq_nil_iff]
  intro o ho
  simp only [decide_eq_true_eq]
  intro he
  exact h (he ▸ List.mem_map_of_mem obsKey ho)

theorem filterKey_eq_find_toList (d : List Obs) (hd : (d.map obsKey).Nodup) (k : String × String) :
    d.filter (fun o => decide (obsKey o = k)) =
      (d.find? fun o => decide (obsKey o = k)).toList := by
  induction d with
  | nil => rfl
  | cons o rest ih =>
    simp only [List.map_cons, List.nodup_cons] at hd
    by_cases ho : obsKey o = k
    · rw [List.filter_cons_of_pos (by simp [ho]), List.find?_cons_of_pos _ (by simp [ho])]
      rw [filterKey_nil_of_not_mem rest k (by rw [← ho]; exact hd.1)]
      rfl
    · rw [List.filter_cons_of_neg (by simp [ho]), List.find?_cons_of_neg _ (by simp [ho])]
      exact ih hd.2

theorem find?_key_self (d : List Obs) (o : Obs) (hd : (d.map obsKey).Nodup) (ho : o ∈ d) :
    d.find? (fun x => decide (obsKey x = obsKey o)) = some o := by
  induction d with
  | nil => cases ho
  | cons x rest ih =>
    simp only [List.map_cons, List.nodup_cons] at hd
    rcases List.mem_cons.mp ho with he | hm
    · subst he
      exact List.find?_cons_of_pos _ (by simp)
    · have hne : obsKey x ≠ obsKey o := by
        intro he
        exact hd.1 (he ▸ List.mem_map_of_mem obsKey hm)
      rw [List.find?_cons_of_neg _ (by simp [hne])]
      exact ih hd.2 hm

theorem extendRow_eq (id : String) (d : List Obs) (lr : Row)
    (hd : (d.map obsKey).Nodup) :
    extendRow id d lr = [⟨lr.year, lr.period, lr.cells ++ [(id, dataCell d (keyOf lr))]⟩] := by
  unfold extendRow dataCell
  rw [filterKey_eq_find_toList d hd (keyOf lr)]
  cases hf : d.find? fun o => decide (obsKey o = keyOf lr) with
  | none => rfl
  | some o => rfl

theorem mergeLeft_eq_map (id : String) (d : List Obs) (T : List Row)
    (hd : (d.map obsKey).Nodup) :
    mergeLeft id d T =
      T.map fun lr => ⟨lr.year, lr.period, lr.cells ++ [(id, dataCell d (keyOf lr))]⟩ := by
  induction T with
  | nil => rfl
  | cons lr rest ih =>
    simp only [mergeLeft, List.map_cons, extendRow_eq id d lr hd, ih, List.singleton_append]

theorem mergeOuter_keys (cols : List String) (T : List Row) (id : String) (d : List Obs)
    (hd : (d.map obsKey).Nodup) :
    (mergeOuter cols T id d).map keyOf =
      T.map keyOf ++
        ((d.filter fun o => !(T.any fun lr => decide (keyOf lr = obsKey o))).map obsKey) := by
  unfold mergeOuter mergeRight
  rw [mergeLeft_eq_map id d T hd]
  rw [List.map_append, List.map_map, List.map_map]
  rfl

theorem mergeOuter_inv (hist : List (String × List Obs)) (cols : List String) (T : List Row)
    (id : String) (d : List Obs)
    (hid : id ∉ hist.map Prod.fst)
    (hd : (d.map obsKey).Nodup)
    (inv : MergeInv hist cols T) :
    MergeInv (hist ++ [(id, d)]) (cols ++ [id]) (mergeOuter cols T id d) := by
  have hidcols : id ∉ cols := by rw [inv.cols_eq]; exact hid
  have hMO : mergeOuter cols T id d =
      (T.map fun lr =>
        (⟨lr.year, lr.period, lr.cells ++ [(id, dataCell d (keyOf lr))]⟩ : Row)) ++
      ((d.filter fun o => !(T.any fun lr => decide (keyOf lr = obsKey o))).map fun o =>
        (⟨o.year, o.period,
          (cols.map fun c => (c, (none : Option ℚ))) ++ [(id, some o.value)]⟩ : Row)) := by
    unfold mergeOuter mergeRight
    rw [mergeLeft_eq_map id d T hd]
  constructor
  · simp [inv.cols_eq]
  · intro r hr
    rw [hMO] at hr
    rcases List.mem_append.mp hr with hL | hR
    · obtain ⟨lr, hlr, rfl⟩ := List.mem_map.mp hL
      simp [List.map_append, inv.labels_eq lr hlr]
    · obtain ⟨o, ho, rfl⟩ := List.mem_map.mp hR
      simp only [List.map_append, List.map_map]
      have hcomp : (Prod.fst ∘ fun c : String => (c, (none : Option ℚ))) = fun c => c :=
        funext fun c => rfl
      simp [hcomp]
  · rw [mergeOuter_keys cols T id d hd]
    rw [List.nodup_append]
    refine ⟨inv.keys_nodup, ((List.filter_sublist d).map obsKey).nodup hd, ?_⟩
    intro k hk1 hk2
    obtain ⟨o, ho, rfl⟩ := List.mem_map.mp hk2
    have hflt := (List.mem_filter.mp ho).2
    rw [Bool.not_eq_eq_eq_not, Bool.not_true] at hflt
    exact ((any_key_eq_false T (obsKey o)).mp hflt) hk1
  · intro k
    rw [mergeOuter_keys cols T id d hd, List.mem_append]
    constructor
    · rintro (hk | hk)
      · obtain ⟨pr, hpr, hk2⟩ := (inv.keys_mem k).mp hk
        exact ⟨pr, List.mem_append_left _ hpr, hk2⟩
      · obtain ⟨o, ho, rfl⟩ := List.mem_map.mp hk
        exact ⟨(id, d), List.mem_append_right _ (List.mem_singleton_self _),
          List.mem_map_of_mem obsKey (List.mem_filter.mp ho).1⟩
    · rintro ⟨pr, hpr, hk⟩
      rcases List.mem_append.mp hpr with hpr2 | hpr2
      · exact Or.inl ((inv.keys_mem k).mpr ⟨pr, hpr2, hk⟩)
      · rw [List.mem_singleton] at hpr2
        subst hpr2
        by_cases hT : k ∈ T.map keyOf
        · exact Or.inl hT
        · right
          obtain ⟨o, ho, rfl⟩ := List.mem_map.mp hk
          refine List.mem_map_of_mem obsKey (List.mem_filter.mpr ⟨ho, ?_⟩)
          rw [Bool.not_eq_eq_eq_not, Bool.not_true]
          exact (any_key_eq_false T (obsKey o)).mpr hT
  · intro r hr pr hpr
    rw [hMO] at hr
    rcases List.mem_append.mp hr with hL | hR
    · obtain ⟨lr, hlr, rfl⟩ := List.mem_map.mp hL
      rcases List.mem_append.mp hpr with hh | hh
      · exact assocFind_append_left _ _ _ _ (inv.cell_spec lr hlr pr hh)
      · rw [List.mem_singleton] at hh
        subst hh
        have hnone : assocFind lr.cells id = none :=
          assocFind_eq_none_of_not_mem _ _ (by rw [inv.labels_eq lr hlr]; exact hidcols)
        rw [assocFind_append_right _ _ _ hnone]
        simp only [assocFind, if_pos rfl, Option.some.injEq]
        rfl
    · obtain ⟨o, ho, rfl⟩ := List.mem_map.mp hR
      have hnotT : obsKey o ∉ T.map keyOf := by
        have hflt := (List.mem_filter.mp ho).2
        rw [Bool.not_eq_eq_eq_not, Bool.not_true] at hflt
        exact (any_key_eq_false T (obsKey o)).mp hflt
      rcases List.mem_append.mp hpr with hh | hh
      · have hprc : pr.1 ∈ cols := by
          rw [inv.cols_eq]
          exact List.mem_map_of_mem Prod.fst hh
        have h1 : assocFind (cols.map fun c => (c, (none : Option ℚ))) pr.1 = some none := by
          rw [assocFind_mapNone]
          simp [hprc]
        have h2 : dataCell pr.2 (obsKey o) = none := by
          unfold dataCell
          rw [List.find?_eq_none.mpr ?_]
          · rfl
          · intro x hx
            simp only [decide_eq_true_eq]
            intro he
            exact hnotT ((inv.keys_mem (obsKey o)).mpr
              ⟨pr, hh, he ▸ List.mem_map_of_mem obsKey hx⟩)
        rw [assocFind_append_left _ _ _ _ h1]
        show some (none : Option ℚ) = some (dataCell pr.2 (obsKey o))
        rw [h2]
      · rw [List.mem_singleton] at hh
        subst hh
        have h1 : assocFind (cols.map fun c => (c, (none : Option ℚ))) id = none := by
          rw [assocFind_mapNone]
          simp [hidcols]
        rw [assocFind_append_right _ _ _ h1]
        simp only [assocFind, if_pos rfl]
        show some (some o.value) = some (dataCell d (obsKey o))
        unfold dataCell
        rw [find?_key_self d o hd (List.mem_filter.mp ho).1]
        rfl

theorem pairFold_inv (ps : List (String × List Obs)) (hist : List (String × List Obs))
    (cols : List String) (T : List Row)
    (hnd : ((hist ++ ps).map Prod.fst).Nodup)
    (hkeys : ∀ pr ∈ ps, (pr.2.map obsKey).Nodup)
    (inv : MergeInv hist cols T) :
    MergeInv (hist ++ ps) (pairFold ps cols T).1 (pairFold ps cols T).2 := by
  induction ps generalizing hist cols T with
  | nil => simpa using inv
  | cons pr rest ih =>
    obtain ⟨id, d⟩ := pr
    have hid : id ∉ hist.map Prod.fst := by
      intro hm
      rw [List.map_append, List.nodup_append] at hnd
      exact hnd.2.2 hm (by simp)
    have step := mergeOuter_inv hist cols T id d hid (hkeys (id, d) (by simp)) inv
    have hsplit : hist ++ (id, d) :: rest = (hist ++ [(id, d)]) ++ rest := by simp
    rw [hsplit]
    show MergeInv ((hist ++ [(id, d)]) ++ rest)
      (pairFold rest (cols ++ [id]) (mergeOuter cols T id d)).1
      (pairFold rest (cols ++ [id]) (mergeOuter cols T id d)).2
    exact ih (hist ++ [(id, d)]) (cols ++ [id]) (mergeOuter cols T id d)
      (by rw [← hsplit]; exact hnd)
      (fun pr2 hpr2 => hkeys pr2 (List.mem_cons_of_mem _ hpr2)) step

theorem parseFold_eq_pairFold (sd : List RawSeries) (cols : List String) (T : List Row) :
    parseFold sd cols T = pairFold (activePairs sd) cols T := by
  induction sd generalizing cols T with
  | nil => rfl
  | cons s rest ih =>
    by_cases h : (s.data.getD []).isEmpty
    · simp only [parseFold, activePairs, List.filterMap_cons, h, if_pos rfl]
      exact ih cols T
    · simp only [parseFold, activePairs, List.filterMap_cons, if_neg h, h]
      simp only [Bool.false_eq_true, if_false]
      exact ih (cols ++ [s.seriesID.getD "Unknown"]) _

theorem activePairs_mem (sd : List RawSeries) (pr : String × List Obs)
    (h : pr ∈ activePairs sd) :
    ∃ s ∈ sd, pr = (s.seriesID.getD "Unknown", s.data.getD []) := by
  unfold activePairs at h
  obtain ⟨s, hs, hsome⟩ := List.mem_filterMap.mp h
  by_cases he : (s.data.getD []).isEmpty
  · rw [if_pos he] at hsome
    exact Option.noConfusion hsome
  · rw [if_neg he] at hsome
    exact ⟨s, hs, (Option.some.injEq _ _).mp hsome |>.symm⟩

theorem parse_inv (sd : List RawSeries)
    (hkeys : ∀ s ∈ sd, ((s.data.getD []).map obsKey).Nodup)
    (hids : ((activePairs sd).map Prod.fst).Nodup) :
    MergeInv (activePairs sd) (parseFold sd [] []).1 (parseFold sd [] []).2 := by
  rw [parseFold_eq_pairFold]
  have base : MergeInv [] [] [] := by
    constructor
    · rfl
    · intro r hr; cases hr
    · exact List.nodup_nil
    · intro k; simp
    · intro r hr; cases hr
  have := pairFold_inv (activePairs sd) [] [] [] (by simpa using hids)
    (fun pr hpr => by
      obtain ⟨s, hs, hpr2⟩ := activePairs_mem sd pr hpr
      rw [hpr2]
      exact hkeys s hs) base
  simpa using this

theorem assocFind_map_rename {α : Type} (cells : List (String × α)) (f : String → String)
    (a : String) (hnd : ((cells.map Prod.fst).map f).Nodup) (ha : a ∈ cells.map Prod.fst) :
    assocFind (cells.map fun cv => (f cv.1, cv.2)) (f a) = assocFind cells a := by
  induction cells with
  | nil => cases ha
  | cons kv rest ih =>
    obtain ⟨k, v⟩ := kv
    simp only [List.map_cons, List.nodup_cons] at hnd
    by_cases hk : k = a
    · subst hk
      simp [assocFind]
    · have ha2 : a ∈ rest.map Prod.fst := by
        have ha3 : a ∈ k :: rest.map Prod.fst := by
          rw [List.map_cons] at ha
          exact ha
        rcases List.mem_cons.mp ha3 with h1 | h1
        · exact absurd h1.symm hk
        · exact h1
      have hfk : ¬f k = f a := by
        intro he
        exact hnd.1 (he ▸ List.mem_map_of_mem f ha2)
      simp only [List.map_cons, assocFind, if_neg hfk, if_neg hk]
      exact ih hnd.2 ha2

theorem assocFind_map_rename_none {α : Type} (cells : List (String × α)) (f : String → String)
    (l : String) (h : l ∉ (cells.map Prod.fst).map f) :
    assocFind (cells.map fun cv => (f cv.1, cv.2)) l = none := by
  apply assocFind_eq_none_of_not_mem
  rw [List.map_map]
  simpa [List.map_map, Function.comp] using h

theorem filter_key_length_one {l : List Row} {k : String × String}
    (hnd : (l.map keyOf).Nodup) (hm : k ∈ l.map keyOf) :
    (l.filter fun r => decide (keyOf r = k)).length = 1 := by
  induction l with
  | nil => cases hm
  | cons r rest ih =>
    simp only [List.map_cons, List.nodup_cons] at hnd
    by_cases hk : keyOf r = k
    · rw [List.filter_cons_of_pos (by simp [hk])]
      have hrest : rest.filter (fun r => decide (keyOf r = k)) = [] := by
        rw [List.filter_eq_nil_iff]
        intro x hx
        simp only [decide_eq_true_eq]
        intro he
        exact hnd.1 (by rw [hk, ← he]; exact List.mem_map_of_mem keyOf hx)
      rw [hrest]
      rfl
    · rw [List.filter_cons_of_neg (by simp [hk])]
      have hm2 : k ∈ keyOf r :: rest.map keyOf := by
        rw [List.map_cons] at hm
        exact hm
      rcases List.mem_cons.mp hm2 with h1 | h1
      · exact absurd h1.symm hk
      · exact ih hnd.2 h1

/-! ### C6: outer-join completeness of the merged table -/

/-- C6: for any response whose series have unique (year, period) keys and
pairwise distinct column labels, every (year, period) key present in at
least one non-skipped input series appears in exactly one row of the
table `parse_series_data` builds, and every series absent at that key
holds a null cell in its column on that row. -/
theorem C6_outer_join_completeness (sd : List RawSeries) (dict : List (String × String))
    (vb : Bool)
    (hkeys : ∀ s ∈ sd, ((s.data.getD []).map obsKey).Nodup)
    (hlabels : (((activePairs sd).map Prod.fst).map (renameCol dict)).Nodup)
    (y p : String) (pr0 : String × List Obs) (hpr0 : pr0 ∈ activePairs sd)
    (hk0 : (y, p) ∈ pr0.2.map obsKey) :
    (((parse_series_data sd dict vb).filter fun r => decide (keyOf r = (y, p))).length = 1) ∧
    (∀ r ∈ parse_series_data sd dict vb, keyOf r = (y, p) →
      ∀ pr ∈ activePairs sd, (y, p) ∉ pr.2.map obsKey →
        assocFind r.cells (renameCol dict pr.1) = some none) := by
  have hids : ((activePairs sd).map Prod.fst).Nodup := hlabels.of_map
  have inv := parse_inv sd hkeys hids
  constructor
  · unfold parse_series_data
    rw [List.filter_map, List.length_map]
    have hco : ((fun r => decide (keyOf r = (y, p))) ∘ renameRow dict) =
        fun r => decide (keyOf r = (y, p)) := funext fun r => rfl
    rw [hco]
    exact filter_key_length_one inv.keys_nodup
      ((inv.keys_mem (y, p)).mpr ⟨pr0, hpr0, hk0⟩)
  · intro r hr hkr pr hpr hknot
    unfold parse_series_data at hr
    obtain ⟨r0, hr0, rfl⟩ := List.mem_map.mp hr
    have hk0r : keyOf r0 = (y, p) := hkr
    have hlab0 : r0.cells.map Prod.fst = (activePairs sd).map Prod.fst := by
      rw [inv.labels_eq r0 hr0, inv.cols_eq]
    have ha : pr.1 ∈ r0.cells.map Prod.fst := by
      rw [hlab0]
      exact List.mem_map_of_mem Prod.fst hpr
    have hnd2 : ((r0.cells.map Prod.fst).map (renameCol dict)).Nodup := by
      rw [hlab0]
      exact hlabels
    show assocFind (r0.cells.map fun cv => (renameCol dict cv.1, cv.2))
      (renameCol dict pr.1) = some none
    rw [assocFind_map_rename r0.cells (renameCol dict) pr.1 hnd2 ha]
    rw [inv.cell_spec r0 hr0 pr hpr, hk0r]
    have hnone : dataCell pr.2 (y, p) = none := by
      unfold dataCell
      rw [List.find?_eq_none.mpr ?_]
      · rfl
      · intro x hx
        simp only [decide_eq_true_eq]
        intro he
        exact hknot (he ▸ List.mem_map_of_mem obsKey hx)
    rw [hnone]

/-- Witness for C6 at `seriesW`: the key (2020, M01), present only in
series S1, appears in exactly one merged row, and that row's cell in the
other series' column Y is null. -/
theorem C6_witness :
    ((parse_series_data seriesW dictW false).filter fun r =>
        decide (keyOf r = ("2020", "M01"))).length = 1 ∧
    assocFind [("X", some (1 : ℚ)), ("Y", (none : Option ℚ))] (renameCol dictW "S2") =
      some none := by
  have h := C6_outer_join_completeness seriesW dictW false
    (by decide) (by decide) "2020" "M01"
    ("S1", [⟨"2020", "M01", 1⟩, ⟨"2020", "M02", 2⟩])
    (List.mem_cons_self _ _) (by decide)
  refine ⟨h.1, ?_⟩
  exact h.2 ⟨"2020", "M01", [("X", some 1), ("Y", none)]⟩
    (List.mem_cons_self _ _) rfl
    ("S2", [⟨"2020", "M02", 3⟩, ⟨"2020", "M03", 4⟩])
    (List.mem_cons_of_mem _ (List.mem_cons_self _ _)) (by decide)

theorem find?_fst_self {β : Type} (l : List (String × β)) (pr : String × β)
    (hnd : (l.map Prod.fst).Nodup) (h : pr ∈ l) :
    l.find? (fun x => decide (x.1 = pr.1)) = some pr := by
  induction l with
  | nil => cases h
  | cons x rest ih =>
    simp only [List.map_cons, List.nodup_cons] at hnd
    rcases List.mem_cons.mp h with he | hm
    · subst he
      exact List.find?_cons_of_pos _ (by simp)
    · have hne : x.1 ≠ pr.1 := by
        intro he
        exact hnd.1 (he ▸ List.mem_map_of_mem Prod.fst hm)
      rw [List.find?_cons_of_neg _ (by simp [hne])]
      exact ih hnd.2 hm

theorem assoc_reconstruct {α : Type} (cells : List (String × α)) (g : String → α)
    (hnd : (cells.map Prod.fst).Nodup)
    (hlook : ∀ i ∈ cells.map Prod.fst, assocFind cells i = some (g i)) :
    cells = (cells.map Prod.fst).map fun i => (i, g i) := by
  induction cells with
  | nil => rfl
  | cons kv rest ih =>
    obtain ⟨k, v⟩ := kv
    simp only [List.map_cons, List.nodup_cons] at hnd
    have hk := hlook k (by simp)
    simp only [assocFind, if_true, eq_self_iff_true, Option.some.injEq] at hk
    simp only [List.map_cons]
    refine congrArg₂ List.cons (by rw [hk]) ?_
    refine ih hnd.2 ?_
    intro i hi
    have hrec := hlook i (by simp [hi])
    have hki : ¬k = i := fun he => hnd.1 (he ▸ hi)
    simpa [assocFind, hki] using hrec

theorem assocFind_pairs_map {α : Type} (ids : List String) (f : String → String)
    (g : String → α) (l : String) :
    assocFind (ids.map fun i => (f i, g i)) l =
      match ids.find? (fun i => decide (f i = l)) with
      | some i => some (g i)
      | none => none := by
  induction ids with
  | nil => rfl
  | cons i rest ih =>
    by_cases hi : f i = l
    · rw [List.find?_cons_of_pos _ (by simp [hi])]
      simp [assocFind, hi]
    · rw [List.find?_cons_of_neg _ (by simp [hi])]
      simp only [List.map_cons, assocFind, if_neg hi]
      exact ih

theorem cellAt_parse (sd : List RawSeries) (dict : List (String × String)) (vb : Bool)
    (hkeys : ∀ s ∈ sd, ((s.data.getD []).map obsKey).Nodup)
    (hlabels : (((activePairs sd).map Prod.fst).map (renameCol dict)).Nodup)
    (y p l : String) :
    cellAt (parse_series_data sd dict vb) y p l =
      if ∃ pr ∈ activePairs sd, (y, p) ∈ pr.2.map obsKey
      then some (mergedCellDescr (activePairs sd) dict (y, p) l)
      else none := by
  have hids : ((activePairs sd).map Prod.fst).Nodup := hlabels.of_map
  have inv := parse_inv sd hkeys hids
  unfold cellAt parse_series_data
  rw [List.find?_map]
  have hco : ((fun r => decide (keyOf r = (y, p))) ∘ renameRow dict) =
      fun r => decide (keyOf r = (y, p)) := funext fun r => rfl
  rw [hco]
  by_cases hex : ∃ pr ∈ activePairs sd, (y, p) ∈ pr.2.map obsKey
  · rw [if_pos hex]
    have hkmem : (y, p) ∈ (parseFold sd [] []).2.map keyOf := (inv.keys_mem _).mpr hex
    obtain ⟨r0, hr0mem, hr0key⟩ := List.mem_map.mp hkmem
    rcases hfind : (parseFold sd [] []).2.find? (fun r => decide (keyOf r = (y, p)))
      with _ | r1
    · rw [List.find?_eq_none] at hfind
      exact absurd (by simp [hr0key]) (hfind r0 hr0mem)
    · have hr1mem := List.mem_of_find?_eq_some hfind
      have hr1key : keyOf r1 = (y, p) := by
        have := List.find?_some hfind
        simpa using this
      simp only [Option.map_some']
      refine congrArg some ?_
      have hlab1 : r1.cells.map Prod.fst = (activePairs sd).map Prod.fst := by
        rw [inv.labels_eq r1 hr1mem, inv.cols_eq]
      have hrec : r1.cells = (r1.cells.map Prod.fst).map fun i =>
          (i, (match (activePairs sd).find? (fun pr => decide (pr.1 = i)) with
               | some pr => dataCell pr.2 (y, p)
               | none => none)) := by
        refine assoc_reconstruct r1.cells _ (by rw [hlab1]; exact hids) ?_
        intro i hi
        rw [hlab1] at hi
        obtain ⟨pr, hpr, hpr1⟩ := List.mem_map.mp hi
        subst hpr1
        rw [find?_fst_self (activePairs sd) pr hids hpr]
        rw [inv.cell_spec r1 hr1mem pr hpr, hr1key]
      show assocFind (r1.cells.map fun cv => (renameCol dict cv.1, cv.2)) l =
        mergedCellDescr (activePairs sd) dict (y, p) l
      rw [hrec, hlab1, List.map_map]
      have hshape : ((fun cv : String × Option ℚ => (renameCol dict cv.1, cv.2)) ∘ fun i =>
          (i, (match (activePairs sd).find? (fun pr => decide (pr.1 = i)) with
               | some pr => dataCell pr.2 (y, p)
               | none => none))) = fun i => (renameCol dict i,
          (match (activePairs sd).find? (fun pr => decide (pr.1 = i)) with
           | some pr => dataCell pr.2 (y, p)
           | none => none)) := funext fun i => rfl
      rw [hshape, assocFind_pairs_map, List.find?_map]
      have hco2 : ((fun i => decide (renameCol dict i = l)) ∘ Prod.fst) =
          fun pr : String × List Obs => decide (renameCol dict pr.1 = l) :=
        funext fun pr => rfl
      rw [hco2]
      unfold mergedCellDescr
      rcases hf2 : (activePairs sd).find? (fun pr => decide (renameCol dict pr.1 = l))
        with _ | pr2
      · rw [hf2]
        rfl
      · rw [hf2]
        have hpr2mem := List.mem_of_find?_eq_some hf2
        simp only [Option.map_some']
        rw [find?_fst_self (activePairs sd) pr2 hids hpr2mem]
  · rw [if_neg hex]
    have hnone : (parseFold sd [] []).2.find? (fun r => decide (keyOf r = (y, p))) = none := by
      rw [List.find?_eq_none]
      intro r hr hkey
      simp only [decide_eq_true_eq] at hkey
      exact hex ((inv.keys_mem (y, p)).mp (hkey ▸ List.mem_map_of_mem keyOf hr))
    rw [hnone]
    rfl

theorem mergedCellDescr_swap (ps1 ps2 : List (String × List Obs))
    (dict : List (String × String)) (k : String × String) (l : String)
    (hno : ¬(((ps1.any fun pr => decide (renameCol dict pr.1 = l)) = true) ∧
             ((ps2.any fun pr => decide (renameCol dict pr.1 = l)) = true))) :
    mergedCellDescr (ps1 ++ ps2) dict k l = mergedCellDescr (ps2 ++ ps1) dict k l := by
  unfold mergedCellDescr
  rw [List.find?_append, List.find?_append]
  rcases h1 : ps1.find? (fun pr => decide (renameCol dict pr.1 = l)) with _ | pr1
  · rcases h2 : ps2.find? (fun pr => decide (renameCol dict pr.1 = l)) with _ | pr2
    · rw [h1, h2]
    · rw [h1, h2]
      rfl
  · have hh2 : ps2.find? (fun pr => decide (renameCol dict pr.1 = l)) = none := by
      cases hc : ps2.find? (fun pr => decide (renameCol dict pr.1 = l)) with
      | none => rfl
      | some pr2 =>
        have hm1 := List.mem_of_find?_eq_some h1
        have hp1 := List.find?_some h1
        have hm2 := List.mem_of_find?_eq_some hc
        have hp2 := List.find?_some hc
        exact absurd ⟨List.any_eq_true.mpr ⟨pr1, hm1, hp1⟩,
          List.any_eq_true.mpr ⟨pr2, hm2, hp2⟩⟩ hno
    rw [h1, hh2]
    rfl

theorem activePairs_pair (A B : RawSeries) :
    activePairs [A, B] = activePairs [A] ++ activePairs [B] := by
  unfold activePairs
  rw [show ([A, B] : List RawSeries) = [A] ++ [B] from rfl, List.filterMap_append]

theorem activePairs_single_fst (X : RawSeries) (pr : String × List Obs)
    (h : pr ∈ activePairs [X]) : pr.1 = X.seriesID.getD "Unknown" := by
  obtain ⟨s, hs, hpr⟩ := activePairs_mem [X] pr h
  have hsX : s = X := by simpa using hs
  rw [hpr, hsX]

theorem labels_nodup_pair (A B : RawSeries) (dict : List (String × String))
    (hlab : renameCol dict (A.seriesID.getD "Unknown") ≠
      renameCol dict (B.seriesID.getD "Unknown")) :
    (((activePairs [A, B]).map Prod.fst).map (renameCol dict)).Nodup := by
  rw [activePairs_pair]
  by_cases hEA : A.data.getD [] = [] <;> by_cases hEB : B.data.getD [] = [] <;>
    simp [activePairs, List.filterMap_cons, List.isEmpty_iff, hEA, hEB, hlab]

/-! ### C7: merge order independence -/

/-- C7: for two series with per-series unique keys and distinct column
labels, folding the outer join in either order produces the same table
contents: at every (year, period) key and column label, the cell (row
present / column present / value) is the same, row order aside. -/
theorem C7_merge_order_independent (A B : RawSeries) (dict : List (String × String))
    (vb1 vb2 : Bool)
    (hA : ((A.data.getD []).map obsKey).Nodup)
    (hB : ((B.data.getD []).map obsKey).Nodup)
    (hlab : renameCol dict (A.seriesID.getD "Unknown") ≠
      renameCol dict (B.seriesID.getD "Unknown")) :
    ∀ y p l, cellAt (parse_series_data [A, B] dict vb1) y p l =
      cellAt (parse_series_data [B, A] dict vb2) y p l := by
  intro y p l
  have hkeys1 : ∀ s ∈ ([A, B] : List RawSeries), ((s.data.getD []).map obsKey).Nodup := by
    intro s hs
    rcases List.mem_cons.mp hs with rfl | hs2
    · exact hA
    · rcases List.mem_cons.mp hs2 with rfl | hs3
      · exact hB
      · cases hs3
  have hkeys2 : ∀ s ∈ ([B, A] : List RawSeries), ((s.data.getD []).map obsKey).Nodup := by
    intro s hs
    rcases List.mem_cons.mp hs with rfl | hs2
    · exact hB
    · rcases List.mem_cons.mp hs2 with rfl | hs3
      · exact hA
      · cases hs3
  rw [cellAt_parse [A, B] dict vb1 hkeys1 (labels_nodup_pair A B dict hlab) y p l,
    cellAt_parse [B, A] dict vb2 hkeys2 (labels_nodup_pair B A dict (Ne.symm hlab)) y p l]
  have hexiff : (∃ pr ∈ activePairs [A, B], (y, p) ∈ pr.2.map obsKey) ↔
      (∃ pr ∈ activePairs [B, A], (y, p) ∈ pr.2.map obsKey) := by
    rw [activePairs_pair, activePairs_pair]
    constructor
    · rintro ⟨pr, hpr, hk⟩
      refine ⟨pr, ?_, hk⟩
      rw [List.mem_append] at hpr ⊢
      exact hpr.symm
    · rintro ⟨pr, hpr, hk⟩
      refine ⟨pr, ?_, hk⟩
      rw [List.mem_append] at hpr ⊢
      exact hpr.symm
  have hdesc : mergedCellDescr (activePairs [A, B]) dict (y, p) l =
      mergedCellDescr (activePairs [B, A]) dict (y, p) l := by
    rw [activePairs_pair, activePairs_pair]
    apply mergedCellDescr_swap
    rintro ⟨h1, h2⟩
    obtain ⟨pr1, hpr1, he1⟩ := List.any_eq_true.mp h1
    obtain ⟨pr2, hpr2, he2⟩ := List.any_eq_true.mp h2
    simp only [decide_eq_true_eq] at he1 he2
    rw [activePairs_single_fst A pr1 hpr1] at he1
    rw [activePairs_single_fst B pr2 hpr2] at he2
    exact hlab (he1.trans he2.symm)
  exact if_congr hexiff (congrArg some hdesc) rfl

/-- Witness for C7: folding `seriesW`'s two series in either order gives
the same cell at the shared key (2020, M02) in column X. -/
theorem C7_witness :
    cellAt (parse_series_data
        [⟨some "S1", some [⟨"2020", "M01", 1⟩, ⟨"2020", "M02", 2⟩]⟩,
         ⟨some "S2", some [⟨"2020", "M02", 3⟩, ⟨"2020", "M03", 4⟩]⟩]
        dictW false) "2020" "M02" "X" =
      cellAt (parse_series_data
        [⟨some "S2", some [⟨"2020", "M02", 3⟩, ⟨"2020", "M03", 4⟩]⟩,
         ⟨some "S1", some [⟨"2020", "M01", 1⟩, ⟨"2020", "M02", 2⟩]⟩]
        dictW true) "2020" "M02" "X" :=
  C7_merge_order_independent
    ⟨some "S1", some [⟨"2020", "M01", 1⟩, ⟨"2020", "M02", 2⟩]⟩
    ⟨some "S2", some [⟨"2020", "M02", 3⟩, ⟨"2020", "M03", 4⟩]⟩
    dictW false true (by decide) (by decide) (by decide) "2020" "M02" "X"

/-! ### C10: the BLS pipeline derives change for the first label only -/

theorem monthsOf_map_fst (df : List Row) (pairs : List (Row × ℤ))
    (h : monthsOf df = some pairs) : pairs.map Prod.fst = df := by
  induction df generalizing pairs with
  | nil =>
    simp only [monthsOf] at h
    cases h
    rfl
  | cons r rest ih =>
    simp only [monthsOf, Bind.bind, Option.bind] at h
    cases hm : monthOf r.period with
    | none => rw [hm] at h; exact Option.noConfusion h
    | some m =>
      rw [hm] at h
      cases hrest : monthsOf rest with
      | none => rw [hrest] at h; exact Option.noConfusion h
      | some ms =>
        rw [hrest] at h
        cases h
        simp only [List.map_cons]
        rw [ih ms hrest]

theorem prepare_perm (df : List Row) (t : String) (out : List PreparedRow)
    (h : prepare_dataframe df t = .ok out) : (out.map toRow).Perm df := by
  obtain ⟨pairs, hm, hout⟩ := prepare_ok_shape df t out h
  set sorted := List.insertionSort rowOrd pairs with hsorted
  have hlen : sorted.length ≤
      (pctChange12 (sorted.map fun rm => getCellQ t rm.1.cells)).length := by
    rw [pctChange12_length, List.length_map]
  rw [hout, buildPrepared_map_toRow sorted _ hlen]
  have hperm : sorted.Perm pairs := List.perm_insertionSort rowOrd pairs
  have := hperm.map Prod.fst
  rw [monthsOf_map_fst df pairs hm] at this
  exact this

/-- C10: for a non-empty seriesDict, the full `BLS` pipeline computes the
change column exclusively from the column labelled by the FIRST dict
entry: every change cell follows the 12-back pad-filled percent-change
formula over that column (and no other), while all series columns pass
through to the output rows unchanged (the output rows are, aside from the
derived change/month/label columns, a permutation of the merged table's
rows, which hold every series only as a value column). -/
theorem C10_first_label_change (resp : HttpResponse) (k0 t0 : String)
    (rest : List (String × String)) (vb : Bool) (sj : Json) (sd : List RawSeries)
    (out : List PreparedRow)
    (hf : fetch_bls_data resp = .ok sj)
    (hd : decodeSeries sj = .ok sd)
    (h : BLS resp ((k0, t0) :: rest) vb false = .ok (some out)) :
    (∀ i (hi : i < out.length), out[i].change =
      if i < 12 then none
      else
        match (ffill (out.map fun r => getCellQ t0 r.cells)).getD (i - 12) none,
              (ffill (out.map fun r => getCellQ t0 r.cells)).getD i none with
        | some a, some b => some ((b / a - 1) * 100)
        | _, _ => none) ∧
    (out.map toRow).Perm (parse_series_data sd ((k0, t0) :: rest) vb) := by
  have hp : prepare_dataframe (parse_series_data sd ((k0, t0) :: rest) vb) t0 = .ok out := by
    simp only [BLS, hf, hd, Bind.bind, Except.bind] at h
    cases hpp : prepare_dataframe (parse_series_data sd ((k0, t0) :: rest) vb) t0 with
    | error e => rw [hpp] at h; exact Except.noConfusion h
    | ok out2 =>
      rw [hpp] at h
      simp only [Bool.false_eq_true, if_false, pure, Except.pure, Except.ok.injEq,
        Option.some.injEq] at h
      rw [h]
  exact ⟨fun i hi => prepare_change_spec _ t0 out hp i hi, prepare_perm _ t0 out hp⟩

/-- Witness for C10 at a concrete 200 response carrying one series with
one observation: the output has the change column derived for the first
(and only) label CPI-U, and its rows project back onto the merged table. -/
theorem C10_witness :
    ((([⟨"2020", "M01", [("CPI-U", some (230 : ℚ))], 1, "2020-1", none⟩] :
        List PreparedRow).get ⟨0, by decide⟩).change = none) ∧
    (([⟨"2020", "M01", [("CPI-U", some (230 : ℚ))], 1, "2020-1", none⟩] :
        List PreparedRow).map toRow).Perm
      (parse_series_data [⟨some "CUUR0000SA0", some [⟨"2020", "M01", 230⟩]⟩]
        [("CUUR0000SA0", "CPI-U")] false) := by
  have h := C10_first_label_change
    ⟨200, .jobj [("Results", .jobj [("series", .jarr [.jobj [("seriesID", .jstr "CUUR0000SA0"),
      ("data", .jarr [.jobj [("year", .jstr "2020"), ("period", .jstr "M01"),
        ("value", .jstr "230")]])]])])]⟩
    "CUUR0000SA0" "CPI-U" [] false
    (.jarr [.jobj [("seriesID", .jstr "CUUR0000SA0"),
      ("data", .jarr [.jobj [("year", .jstr "2020"), ("period", .jstr "M01"),
        ("value", .jstr "230")]])]])
    [⟨some "CUUR0000SA0", some [⟨"2020", "M01", 230⟩]⟩]
    [⟨"2020", "M01", [("CPI-U", some 230)], 1, "2020-1", none⟩]
    rfl rfl rfl
  refine ⟨?_, h.2⟩
  have h0 := h.1 0 (by decide)
  rw [List.get_eq_getElem, h0]
  rfl
